import Mathlib

/-!
Verification development for the chatbot-transcript analyzer.

The JavaScript sources embedded here (shallowly) are:
  * src/utils/helpers.js — text-format detection, the timestamped-log parser,
    the loose-text parser and the RESULTS payload decoder;
  * src/services/parser/transcriptParser.js — the session normalizer;
  * src/services/analyzer/analysisEngine.js — the rule-based metrics engine
    and the behavioral classifier.

Modelling conventions:
  * JavaScript strings are `List Char` (`Str`); `trim`, `split`, `toLowerCase`
    are modelled character by character.
  * Plain objects used as keyed tables are association lists in insertion
    order; `Object.values`/`Object.keys`/`Object.entries` follow the
    ECMAScript own-property order (array-index keys first, ascending, then
    the remaining keys in insertion order).
  * `Array.prototype.sort` (spec-mandated stable) is modelled by a stable
    insertion sort.
  * Possibly-absent object fields are `Option` fields (`none` = the key is
    absent / the value is `undefined`).
  * `JSON.parse` is an executable recursive-descent parser returning
    `Option JVal`; `none` models a thrown SyntaxError.
-/

namespace ChatbotAnalyzer

/-- JavaScript strings, one character per list entry. -/
abbrev Str := List Char

/-- The apostrophe character (U+0027). -/
def squote : Char := Char.ofNat 39

/-- The double-quote character (U+0022). -/
def dquote : Char := Char.ofNat 34

/-- Whitespace as matched by `\s` and trimmed by `String.prototype.trim`
(the ASCII forms that occur in transcript files). -/
def isWS (c : Char) : Bool := c == ' ' || c == '\t' || c == '\n' || c == '\r'

/-- Leading whitespace removed. -/
def trimLeft (s : Str) : Str := s.dropWhile isWS

/-- Trailing whitespace removed. -/
def trimRight (s : Str) : Str := (s.reverse.dropWhile isWS).reverse

/-- Model of `String.prototype.trim`. -/
def jsTrim (s : Str) : Str := trimRight (trimLeft s)

/-- Model of `s.split(sep)` for a one-character separator. -/
def splitOnChar (sep : Char) : Str → List Str
  | [] => [[]]
  | c :: rest =>
    let r := splitOnChar sep rest
    if c == sep then [] :: r
    else
      match r with
      | [] => [[c]]
      | grp :: grps => (c :: grp) :: grps

/-- ASCII lower-casing, as `toLowerCase` acts on these inputs. -/
def lowerChar (c : Char) : Char :=
  if 'A' ≤ c ∧ c ≤ 'Z' then Char.ofNat (c.toNat + 32) else c

/-- Model of `String.prototype.toLowerCase` (ASCII range). -/
def lowerStr (s : Str) : Str := s.map lowerChar

/-- Case-insensitive prefix match: if `s` starts with `pat` (given in lower
case) ignoring case, return the rest of `s`. -/
def matchPrefixCI (pat : Str) (s : Str) : Option Str :=
  match pat, s with
  | [], rest => some rest
  | _ :: _, [] => none
  | p :: ps, c :: cs => if lowerChar c == p then matchPrefixCI ps cs else none

/-- Model of `String.prototype.includes` for a needle without case folding. -/
def containsSub (needle : Str) : Str → Bool
  | [] => (matchPrefixCI needle []).isSome
  | c :: rest => (matchPrefixCI needle (c :: rest)).isSome || containsSub needle rest

/-- Decimal digit test (`\d`). -/
def isDigitCh (c : Char) : Bool := '0' ≤ c && c ≤ '9'

/-- Numeric value of a digit string (no sign, no validation). -/
def natOfDigits (s : Str) : Nat :=
  s.foldl (fun a c => a * 10 + (c.toNat - 48)) 0

/-- Decimal rendering of a natural number (used for message ids `msg-i`). -/
def natToDigits (n : Nat) : Str := (Nat.toDigits 10 n)

/-- JavaScript truthiness of a possibly-absent string: `undefined`, `null` and
the empty string are falsy. -/
def truthyS (s : Option Str) : Bool :=
  match s with
  | none => false
  | some t => !t.isEmpty

/-- Model of `a || b` on possibly-absent strings. -/
def jsOrS (a b : Option Str) : Option Str := if truthyS a then a else b

/- ## Plain objects used as keyed tables

A JavaScript object literal used as a map: an association list in insertion
order. `obj[k] = v` updates an existing key in place or appends a new one. -/

/-- Association list in property insertion order. -/
abbrev JsObj (α : Type) := List (Str × α)

/-- Lookup, `o[k]`. -/
def objGet {α : Type} (o : JsObj α) (k : Str) : Option α :=
  (o.find? (fun e => e.fst == k)).map (fun e => e.snd)

/-- Assignment `o[k] = v`: overwrite in place or append. -/
def objSet {α : Type} (o : JsObj α) (k : Str) (v : α) : JsObj α :=
  match o with
  | [] => [(k, v)]
  | e :: rest => if e.fst == k then (k, v) :: rest else e :: objSet rest k v

/-- Whether `s` is a canonical array-index property key: a digit string with no
leading zero (except `0` itself) whose value is below 2^32 - 1. -/
def arrayIndexKey? (s : Str) : Option Nat :=
  match s with
  | [] => none
  | c :: rest =>
    if !(s.all isDigitCh) then none
    else if c == '0' && !rest.isEmpty then none
    else
      let n := natOfDigits s
      if n < 4294967295 then some n else none

/- ## Stable sorts (Array.prototype.sort is stable per ES2019) -/

/-- Stable insert for a descending sort by a numeric key: the new element goes
after every element whose key is greater than or equal to its own. -/
def insertDescBy {α : Type} (key : α → Nat) (x : α) : List α → List α
  | [] => [x]
  | y :: ys => if key x ≤ key y then y :: insertDescBy key x ys else x :: y :: ys

/-- Stable descending sort by a numeric key, processing input left to right.
Models `arr.sort((a, b) => key(b) - key(a))`. -/
def sortDescBy {α : Type} (key : α → Nat) (l : List α) : List α :=
  l.foldl (fun acc x => insertDescBy key x acc) []

/-- Stable insert for an ascending sort by a numeric key. -/
def insertAscBy {α : Type} (key : α → Nat) (x : α) : List α → List α
  | [] => [x]
  | y :: ys => if key y ≤ key x then y :: insertAscBy key x ys else x :: y :: ys

/-- Stable ascending sort by a numeric key. -/
def sortAscBy {α : Type} (key : α → Nat) (l : List α) : List α :=
  l.foldl (fun acc x => insertAscBy key x acc) []

/-- ECMAScript own-property enumeration order for a plain object: entries with
array-index keys first, in ascending numeric order, then the remaining
entries in insertion order. -/
def objEntriesES {α : Type} (o : JsObj α) : JsObj α :=
  sortAscBy (fun e => (arrayIndexKey? e.fst).getD 0)
      (o.filter (fun e => (arrayIndexKey? e.fst).isSome))
    ++ o.filter (fun e => (arrayIndexKey? e.fst).isNone)

/-- Model of `Object.values(o)`. -/
def objValuesES {α : Type} (o : JsObj α) : List α := (objEntriesES o).map (fun e => e.snd)

/-- Model of `Object.keys(o)`. -/
def objKeysES {α : Type} (o : JsObj α) : List Str := (objEntriesES o).map (fun e => e.fst)

/- ## JSON values and JSON.parse -/

mutual

/-- JSON values. Numbers are modelled as exact rationals (binary-double
rounding is immaterial here: the engine only ever keeps string leaves).
Arrays and objects carry their own spine types (`JArr`, `JObj`) so that
recursion over values stays structural and kernel-computable. -/
inductive JVal where
  | jstr (s : Str)
  | jnum (q : ℚ)
  | jbool (b : Bool)
  | jnull
  | jarr (elems : JArr)
  | jobj (fields : JObj)

/-- The element spine of a JSON array. -/
inductive JArr where
  | nil
  | cons (head : JVal) (tail : JArr)

/-- The member spine of a JSON object. -/
inductive JObj where
  | nil
  | cons (key : Str) (val : JVal) (tail : JObj)

end

/-- Build an array spine from a list. -/
def jarrOf (l : List JVal) : JArr := l.foldr JArr.cons JArr.nil

/-- The elements of an array spine as a list. -/
def jarrToList : JArr → List JVal
  | JArr.nil => []
  | JArr.cons v rest => v :: jarrToList rest

/-- Skip JSON insignificant whitespace. -/
def skipWS (s : Str) : Str :=
  s.dropWhile (fun c => c == ' ' || c == '\t' || c == '\n' || c == '\r')

/-- Parse the body of a JSON string after the opening quote; returns the
string and the input after its closing quote. -/
def jparseStringBody (fuel : Nat) (s : Str) : Option (Str × Str) :=
  match fuel, s with
  | 0, _ => none
  | _, [] => none
  | fuel + 1, c :: rest =>
    if c == dquote then some ([], rest)
    else if c == '\\' then
      match rest with
      | [] => none
      | e :: rest2 =>
        let dec : Option Char :=
          if e == dquote then some dquote
          else if e == '\\' then some '\\'
          else if e == '/' then some '/'
          else if e == 'n' then some '\n'
          else if e == 't' then some '\t'
          else if e == 'r' then some '\r'
          else if e == 'b' then some (Char.ofNat 8)
          else if e == 'f' then some (Char.ofNat 12)
          else none
        match dec with
        | none => none
        | some d =>
          match jparseStringBody fuel rest2 with
          | some (tail, after) => some (d :: tail, after)
          | none => none
    else if c.toNat < 32 then none
    else
      match jparseStringBody fuel rest with
      | some (tail, after) => some (c :: tail, after)
      | none => none

/-- Parse a run of decimal digits; fails on the empty run. -/
def jparseDigits (s : Str) : Option (Str × Str) :=
  let ds := s.takeWhile isDigitCh
  if ds.isEmpty then none else some (ds, s.drop ds.length)

/-- Parse a JSON number (integer part, optional fraction, optional exponent),
returning its exact rational value. JSON forbids leading zeros. -/
def jparseNumber (s : Str) : Option (ℚ × Str) :=
  let signed := s.head? == some '-'
  let s1 := if signed then s.drop 1 else s
  match jparseDigits s1 with
  | none => none
  | some (ds, rest) =>
    if ds.length > 1 && ds.head? == some '0' then none
    else
      let intPart : ℚ := (natOfDigits ds : ℚ)
      let (frac, rest2) :=
        match rest with
        | '.' :: r =>
          match jparseDigits r with
          | some (fs, r2) => ((natOfDigits fs : ℚ) / ((10 : ℚ) ^ fs.length), some r2)
          | none => (0, none)
        | _ => (0, some rest)
      match rest2 with
      | none => none
      | some r2 =>
        let base : ℚ := intPart + frac
        let withExp : Option (ℚ × Str) :=
          match r2 with
          | e :: r3 =>
            if e == 'e' || e == 'E' then
              let negExp := r3.head? == some '-'
              let r4 := if r3.head? == some '-' || r3.head? == some '+' then r3.drop 1 else r3
              match jparseDigits r4 with
              | some (es, r5) =>
                let ex := natOfDigits es
                some (if negExp then base / ((10 : ℚ) ^ ex) else base * ((10 : ℚ) ^ ex), r5)
              | none => none
            else some (base, r2)
          | [] => some (base, r2)
        match withExp with
        | none => none
        | some (q, r6) => some ((if signed then -q else q), r6)

mutual

/-- Parse one JSON value (after skipping leading whitespace). -/
def jparseValue (fuel : Nat) (s : Str) : Option (JVal × Str) :=
  match fuel with
  | 0 => none
  | fuel + 1 =>
    let s := skipWS s
    match s with
    | [] => none
    | c :: rest =>
      if c == dquote then
        match jparseStringBody (rest.length + 1) rest with
        | some (str, after) => some (JVal.jstr str, after)
        | none => none
      else if c == '[' then
        let rest2 := skipWS rest
        match rest2 with
        | ']' :: after => some (JVal.jarr JArr.nil, after)
        | _ =>
          match jparseArrayItems fuel rest2 with
          | some (elems, after) => some (JVal.jarr elems, after)
          | none => none
      else if c == '{' then
        let rest2 := skipWS rest
        match rest2 with
        | '}' :: after => some (JVal.jobj JObj.nil, after)
        | _ =>
          match jparseObjectItems fuel rest2 with
          | some (fields, after) => some (JVal.jobj fields, after)
          | none => none
      else
        match matchPrefixCI ("true".toList) s with
        | some after => if s.take 4 = "true".toList then some (JVal.jbool true, after) else none
        | none =>
        match matchPrefixCI ("false".toList) s with
        | some after => if s.take 5 = "false".toList then some (JVal.jbool false, after) else none
        | none =>
        match matchPrefixCI ("null".toList) s with
        | some after => if s.take 4 = "null".toList then some (JVal.jnull, after) else none
        | none =>
          match jparseNumber s with
          | some (q, after) => some (JVal.jnum q, after)
          | none => none

/-- Parse one-or-more comma-separated array elements up to `]`. -/
def jparseArrayItems (fuel : Nat) (s : Str) : Option (JArr × Str) :=
  match fuel with
  | 0 => none
  | fuel + 1 =>
    match jparseValue fuel s with
    | none => none
    | some (v, rest) =>
      match skipWS rest with
      | ']' :: after => some (JArr.cons v JArr.nil, after)
      | ',' :: rest2 =>
        match jparseArrayItems fuel rest2 with
        | some (vs, after) => some (JArr.cons v vs, after)
        | none => none
      | _ => none

/-- Parse one-or-more comma-separated object members up to the closing brace. -/
def jparseObjectItems (fuel : Nat) (s : Str) : Option (JObj × Str) :=
  match fuel with
  | 0 => none
  | fuel + 1 =>
    match skipWS s with
    | c :: rest =>
      if c == dquote then
        match jparseStringBody (rest.length + 1) rest with
        | none => none
        | some (key, afterKey) =>
          match skipWS afterKey with
          | ':' :: afterColon =>
            match jparseValue fuel afterColon with
            | none => none
            | some (v, rest2) =>
              match skipWS rest2 with
              | '}' :: after => some (JObj.cons key v JObj.nil, after)
              | ',' :: rest3 =>
                match jparseObjectItems fuel rest3 with
                | some (fs, after) => some (JObj.cons key v fs, after)
                | none => none
              | _ => none
          | _ => none
      else none
    | [] => none

end

/-- Model of `JSON.parse`: `none` is a thrown SyntaxError. The whole input
must be consumed (up to trailing whitespace). -/
def jsonParse (s : Str) : Option JVal :=
  match jparseValue (s.length + 1) s with
  | some (v, rest) => if (skipWS rest).isEmpty then some v else none
  | none => none

/- ## The RESULTS payload decoder (helpers.js, parseResultsContent) -/

/-- Decoded RESULTS payload. Each field mirrors a key of the object built by
`parseResultsContent`; `none` means the key is absent. -/
structure ResultsPayload where
  styles : Option (List Str) := none
  products : Option JVal := none
  productsRaw : Option Str := none

/-- One attempt of `/STYLES:\s*\[([^\]]+)\]/i` anchored at the start of `s`:
the keyword, optional whitespace, `[`, a non-empty run of non-`]` characters
(the capture), `]`. -/
def stylesTry (s : Str) : Option Str :=
  match matchPrefixCI ("styles:".toList) s with
  | none => none
  | some rest =>
    match rest.dropWhile isWS with
    | '[' :: r3 =>
      let cap := r3.takeWhile (fun c => !(c == ']'))
      if cap.isEmpty then none
      else
        match r3.drop cap.length with
        | ']' :: _ => some cap
        | _ => none
    | _ => none

/-- Leftmost match of the STYLES capture group over the whole content. -/
def stylesFind : Str → Option Str
  | [] => stylesTry []
  | c :: rest =>
    match stylesTry (c :: rest) with
    | some cap => some cap
    | none => stylesFind rest

/-- Longest prefix of `s` that ends in `]` (the greedy `[\s\S]*\]`). -/
def lastCloseSplit (s : Str) : Option Str :=
  match s.reverse.dropWhile (fun c => !(c == ']')) with
  | [] => none
  | r => some r.reverse

/-- One attempt of `/PRODUCTS\s*(\[[\s\S]*\])/i` anchored at the start of `s`:
the keyword, optional whitespace, then the capture runs from the `[` through
the last `]` of the remaining text. -/
def productsTry (s : Str) : Option Str :=
  match matchPrefixCI ("products".toList) s with
  | none => none
  | some rest =>
    match rest.dropWhile isWS with
    | '[' :: tail => lastCloseSplit ('[' :: tail)
    | _ => none

/-- Leftmost match of the PRODUCTS capture group over the whole content. -/
def productsFind : Str → Option Str
  | [] => productsTry []
  | c :: rest =>
    match productsTry (c :: rest) with
    | some cap => some cap
    | none => productsFind rest

/-- Model of `.replace(/['"]/g, '')`. -/
def stripQuotes (s : Str) : Str := s.filter (fun c => !(c == squote || c == dquote))

/-- Model of `.replace(/'/g, '"')`. -/
def normalizeQuotes (s : Str) : Str := s.map (fun c => if c == squote then dquote else c)

/-- Model of `parseResultsContent` (helpers.js): decode the text after
`RESULTS:` into styles and products; on a products JSON parse failure keep
the raw capture under `productsRaw` and leave `products` absent. -/
def parseResultsContent (content : Str) : ResultsPayload :=
  let styles : Option (List Str) :=
    (stylesFind content).map
      (fun cap => (splitOnChar ',' cap).map (fun x => stripQuotes (jsTrim x)))
  match productsFind content with
  | none => { styles := styles }
  | some raw =>
    match jsonParse (normalizeQuotes raw) with
    | some v => { styles := styles, products := some v }
    | none => { styles := styles, productsRaw := some raw }

/- ## Product flattening (analysisEngine.js, flattenProducts) -/

mutual

/-- Model of `flattenProducts` (analysisEngine.js): flatten nested product
arrays to the depth-first list of their non-empty string leaves; a non-array
argument contributes itself only if it is a non-empty string. -/
def flattenProducts : JVal → List Str
  | JVal.jarr xs => flattenLoop xs
  | JVal.jstr s => if s.isEmpty then [] else [s]
  | _ => []

/-- The inner `flatten` loop of `flattenProducts`: arrays are recursed into,
non-empty string items are kept, every other item is dropped. -/
def flattenLoop : JArr → List Str
  | JArr.nil => []
  | JArr.cons (JVal.jarr xs) rest => flattenLoop xs ++ flattenLoop rest
  | JArr.cons (JVal.jstr s) rest => (if s.isEmpty then [] else [s]) ++ flattenLoop rest
  | JArr.cons _ rest => flattenLoop rest

end

mutual

/-- Depth-first leaves of a JSON value, where only arrays are interior
nodes (objects are leaves: the flattener does not descend into them). -/
def dfLeaves : JVal → List JVal
  | JVal.jarr xs => dfLeavesArr xs
  | v => [v]

/-- Depth-first leaves of an array spine. -/
def dfLeavesArr : JArr → List JVal
  | JArr.nil => []
  | JArr.cons x xs => dfLeaves x ++ dfLeavesArr xs

end

/-- The one-leaf filter applied by the flattener: keep a leaf only when it is
a non-empty string. -/
def leafKeep (v : JVal) : Option Str :=
  match v with
  | JVal.jstr s => if s.isEmpty then none else some s
  | _ => none

/- ## Dates

`new Date(isoString)` is modelled as an optional epoch-millisecond value
(`none` = Invalid Date / NaN). The analyzer only ever feeds it ISO-like
strings produced by the transcript grammar or by `toISOString`, so the model
covers `YYYY-MM-DD[THH:MM[:SS[.ffff...]]][+HH:MM|-HH:MM|Z]`; a missing offset
is read as UTC (the host's local zone is abstracted to UTC — no claim
depends on zone-sensitive values). -/

/-- Leap-year rule of the Gregorian calendar. -/
def isLeapYear (y : Nat) : Bool := (y % 4 == 0 && y % 100 != 0) || y % 400 == 0

/-- Days in a month. -/
def daysInMonth (y m : Nat) : Nat :=
  if m == 2 then (if isLeapYear y then 29 else 28)
  else if m == 4 || m == 6 || m == 9 || m == 11 then 30
  else 31

/-- Days from 1970-01-01 to `y-m-d` (valid Gregorian dates, year ≥ 1). -/
def daysFromCivil (y m d : Nat) : Int :=
  let y' := if m ≤ 2 then y - 1 else y
  let era := y' / 400
  let yoe := y' % 400
  let mp := if m > 2 then m - 3 else m + 9
  let doy := (153 * mp + 2) / 5 + d - 1
  let doe := yoe * 365 + yoe / 4 - yoe / 100 + doy
  (era : Int) * 146097 + (doe : Int) - 719468

/-- Read exactly `n` characters satisfying `p`. -/
def takeExact (p : Char → Bool) : Nat → Str → Option (Str × Str)
  | 0, s => some ([], s)
  | _ + 1, [] => none
  | n + 1, c :: cs =>
    if p c then (takeExact p n cs).map (fun r => (c :: r.1, r.2)) else none

/-- Expect one specific character. -/
def expectChar (c : Char) : Str → Option Str
  | [] => none
  | x :: xs => if x == c then some xs else none

/-- Read an `n`-digit field as a number. -/
def takeDigitsN (n : Nat) (s : Str) : Option (Nat × Str) :=
  (takeExact isDigitCh n s).map (fun r => (natOfDigits r.1, r.2))

/-- Parse the optional time-of-day and zone offset of an ISO string, giving
milliseconds past midnight minus the zone offset. -/
def jsDateParseTime (s : Str) : Option Int :=
  match s with
  | [] => some 0
  | 'T' :: rest =>
    match takeDigitsN 2 rest with
    | none => none
    | some (hh, r1) =>
      match expectChar ':' r1 with
      | none => none
      | some r2 =>
        match takeDigitsN 2 r2 with
        | none => none
        | some (mi, r3) =>
          let secPart : Option (Nat × Nat × Str) :=
            match r3 with
            | ':' :: r4 =>
              match takeDigitsN 2 r4 with
              | none => none
              | some (ss, r5) =>
                match r5 with
                | '.' :: r6 =>
                  let frac := r6.takeWhile isDigitCh
                  if frac.isEmpty then none
                  else
                    let ms := natOfDigits ((frac.take 3) ++ List.replicate (3 - frac.length) '0')
                    some (ss, ms, r6.drop frac.length)
                | _ => some (ss, 0, r5)
            | _ => some (0, 0, r3)
          match secPart with
          | none => none
          | some (ss, ms, r7) =>
            let offset : Option Int :=
              match r7 with
              | [] => some 0
              | ['Z'] => some 0
              | sign :: r8 =>
                if sign == '+' || sign == '-' then
                  match takeDigitsN 2 r8 with
                  | none => none
                  | some (oh, r9) =>
                    match expectChar ':' r9 with
                    | none => none
                    | some r10 =>
                      match takeDigitsN 2 r10 with
                      | some (om, []) =>
                        let mins : Int := (oh * 60 + om : Nat)
                        some (if sign == '-' then mins else -mins)
                      | _ => none
                else none
            match offset with
            | none => none
            | some off =>
              if hh ≤ 23 && mi ≤ 59 && ss ≤ 59 then
                some ((hh * 3600000 + mi * 60000 + ss * 1000 + ms : Nat) + off * 60000)
              else none
  | _ => none

/-- Model of `new Date(s).getTime()`: epoch milliseconds, `none` for an
Invalid Date. -/
def jsDateParse (s : Str) : Option Int :=
  match takeDigitsN 4 s with
  | none => none
  | some (y, r1) =>
    match expectChar '-' r1 with
    | none => none
    | some r2 =>
      match takeDigitsN 2 r2 with
      | none => none
      | some (mo, r3) =>
        match expectChar '-' r3 with
        | none => none
        | some r4 =>
          match takeDigitsN 2 r4 with
          | none => none
          | some (d, r5) =>
            if 1 ≤ mo && mo ≤ 12 && 1 ≤ d && d ≤ daysInMonth y mo then
              match jsDateParseTime r5 with
              | none => none
              | some t => some (daysFromCivil y mo d * 86400000 + t)
            else none

/-- Civil date from days since the epoch (inverse of `daysFromCivil`). -/
def civilFromDays (z : Int) : Nat × Nat × Nat :=
  let z' := (z + 719468).toNat
  let era := z' / 146097
  let doe := z' % 146097
  let yoe := (doe - doe / 1460 + doe / 36524 - doe / 146096) / 365
  let y := yoe + era * 400
  let doy := doe - (365 * yoe + yoe / 4 - yoe / 100)
  let mp := (5 * doy + 2) / 153
  let d := doy - (153 * mp + 2) / 5 + 1
  let m := if mp < 10 then mp + 3 else mp - 9
  (if m ≤ 2 then y + 1 else y, m, d)

/-- Zero-padded decimal rendering. -/
def padNat (width n : Nat) : Str :=
  let ds := natToDigits n
  List.replicate (width - ds.length) '0' ++ ds

/-- Model of `Date.prototype.toISOString` (for epochs at year 1 or later). -/
def toISOString (ms : Int) : Str :=
  let days := Int.ediv ms 86400000
  let rem := (Int.emod ms 86400000).toNat
  let c := civilFromDays days
  padNat 4 c.1 ++ '-' :: padNat 2 c.2.1 ++ '-' :: padNat 2 c.2.2
    ++ 'T' :: padNat 2 (rem / 3600000)
    ++ ':' :: padNat 2 (rem / 60000 % 60)
    ++ ':' :: padNat 2 (rem / 1000 % 60)
    ++ '.' :: padNat 3 (rem % 1000) ++ ['Z']

/-- UTC hour of day of an epoch value (`getHours`, host zone read as UTC). -/
def epochHour (ms : Int) : Nat := ((Int.emod (Int.ediv ms 3600000) 24).toNat)

/-- Names used by `getDay` indexing in the engine. -/
def dayNames : List Str :=
  [("Sunday").toList, ("Monday").toList, ("Tuesday").toList, ("Wednesday").toList,
   ("Thursday").toList, ("Friday").toList, ("Saturday").toList]

/-- Weekday index of an epoch value (`getDay`, host zone read as UTC);
1970-01-01 was a Thursday (index 4). -/
def epochWeekday (ms : Int) : Nat :=
  (Int.emod (Int.ediv ms 86400000 + 4) 7).toNat

/- ## Messages, transcripts and parse results -/

/-- A message object as the parsers and the normalizer see it. Every field a
JavaScript message object may carry is optional; `none` = the key is absent. -/
structure JsMessage where
  id : Option Str := none
  role : Option Str := none
  sender : Option Str := none
  content : Option Str := none
  text : Option Str := none
  message : Option Str := none
  timestamp : Option Str := none
  results : Option ResultsPayload := none

/-- Transcript metadata. The nested JavaScript `dateRange: {start, end}` is
flattened to two optional fields (`none` covers both an absent range and a
null bound — the engine treats those identically). -/
structure TMeta where
  timestamp : Option Str := none
  dateRangeStart : Option Str := none
  dateRangeEnd : Option Str := none
  sourceFile : Option Str := none
  format : Option Str := none
  messageCount : Option Nat := none
  hasEscalation : Option Bool := none
  hasOrder : Option Bool := none
  userTurns : Option Nat := none
  botTurns : Option Nat := none

/-- A session/transcript record. -/
structure Transcript where
  id : Option Str := none
  sourceFile : Option Str := none
  messages : List JsMessage := []
  metadata : TMeta := {}

/-- The canonical role strings. -/
def strUser : Str := ("user").toList

/-- Canonical bot role string. -/
def strBot : Str := ("bot").toList

/-- Canonical unknown role string. -/
def strUnknown : Str := ("unknown").toList

/- ## The timestamped-log parser (helpers.js, parseTimestampedTranscript) -/

/-- The four role tokens of the timestamped grammar. -/
inductive LineRole where
  | user
  | ai
  | results
  | convStarted
deriving DecidableEq

/-- Anchored match of
`^\[(\d{4}-\d{2}-\d{2}T[\d:.]+(?:\+[\d:]+)?)\]\s*(USER|AI|RESULTS|CONVERSATION STARTED)(?:\s*:\s*)?(.*)$`
(case-insensitive): returns the timestamp capture, the role and the content
capture. -/
def matchLinePattern (line : Str) : Option (Str × LineRole × Str) :=
  match expectChar '[' line with
  | none => none
  | some r0 =>
    match takeExact isDigitCh 4 r0 with
    | none => none
    | some (y, r1) =>
      match expectChar '-' r1 with
      | none => none
      | some r2 =>
        match takeExact isDigitCh 2 r2 with
        | none => none
        | some (mo, r3) =>
          match expectChar '-' r3 with
          | none => none
          | some r4 =>
            match takeExact isDigitCh 2 r4 with
            | none => none
            | some (d, r5) =>
              match expectChar 'T' r5 with
              | none => none
              | some r6 =>
                let body := r6.takeWhile (fun c => isDigitCh c || c == ':' || c == '.')
                if body.isEmpty then none
                else
                  let r7 := r6.drop body.length
                  let offAndRest : Str × Str :=
                    match r7 with
                    | '+' :: r8 =>
                      let off := r8.takeWhile (fun c => isDigitCh c || c == ':')
                      if off.isEmpty then ([], r7) else ('+' :: off, r8.drop off.length)
                    | _ => ([], r7)
                  match expectChar ']' offAndRest.2 with
                  | none => none
                  | some r9 =>
                    let r10 := r9.dropWhile isWS
                    let roleMatch : Option (LineRole × Str) :=
                      match matchPrefixCI (("user").toList) r10 with
                      | some rest => some (LineRole.user, rest)
                      | none =>
                        match matchPrefixCI (("ai").toList) r10 with
                        | some rest => some (LineRole.ai, rest)
                        | none =>
                          match matchPrefixCI (("results").toList) r10 with
                          | some rest => some (LineRole.results, rest)
                          | none =>
                            match matchPrefixCI (("conversation started").toList) r10 with
                            | some rest => some (LineRole.convStarted, rest)
                            | none => none
                    match roleMatch with
                    | none => none
                    | some (role, afterRole) =>
                      let content :=
                        match afterRole.dropWhile isWS with
                        | ':' :: r11 => r11.dropWhile isWS
                        | _ => afterRole
                      let ts := y ++ '-' :: mo ++ '-' :: d ++ 'T' :: body ++ offAndRest.1
                      some (ts, role, content)

/-- A separator line: `/^={10,}$/`. -/
def isSeparatorLine (s : Str) : Bool := 10 ≤ s.length && s.all (fun c => c == '=')

/-- Date-object comparison `a < b` (false whenever either side is NaN). -/
def dateLt (a b : Option Int) : Bool :=
  match a, b with
  | some x, some y => decide (x < y)
  | _, _ => false

/-- Date-object comparison `a > b` (false whenever either side is NaN). -/
def dateGt (a b : Option Int) : Bool :=
  match a, b with
  | some x, some y => decide (x > y)
  | _, _ => false

/-- Update the final element of a list in place. -/
def updateLast {α : Type} (f : α → α) : List α → List α
  | [] => []
  | [m] => [f m]
  | m :: rest => m :: updateLast f rest

/-- Loop state of `parseTimestampedTranscript`: the emitted messages, the
open current message, and the tracked date range (`none` = null; `some none`
= an Invalid Date object). -/
structure TsState where
  messages : List JsMessage := []
  currentMessage : Option JsMessage := none
  earliest : Option (Option Int) := none
  latest : Option (Option Int) := none

/-- The messages emitted so far once the open current message is pushed
(`if (currentMessage) messages.push(currentMessage)`). -/
def pushCur (st : TsState) : List JsMessage :=
  match st.currentMessage with
  | some m => st.messages ++ [m]
  | none => st.messages

/-- The earliest-timestamp update (`!earliest || parsed < earliest`). -/
def updEarliest (st : TsState) (parsed : Option Int) : Option (Option Int) :=
  if st.earliest.isNone || dateLt parsed (st.earliest.getD none) then some parsed
  else st.earliest

/-- The latest-timestamp update (`!latest || parsed > latest`). -/
def updLatest (st : TsState) (parsed : Option Int) : Option (Option Int) :=
  if st.latest.isNone || dateGt parsed (st.latest.getD none) then some parsed
  else st.latest

/-- Attach the decoded RESULTS payload to the last emitted message when (and
only when) that message is a bot message. -/
def attachIfBot (msgs : List JsMessage) (content : Str) : List JsMessage :=
  match msgs.getLast? with
  | some lastMsg =>
    if lastMsg.role == some strBot then
      updateLast (fun m => { m with results := some (parseResultsContent content) }) msgs
    else msgs
  | none => msgs

/-- One line of the `parseTimestampedTranscript` loop. -/
def tsStep (st : TsState) (line : Str) : TsState :=
  if isSeparatorLine (jsTrim line) || (jsTrim line).isEmpty then st
  else
    match matchLinePattern (jsTrim line) with
    | some (ts, role, content) =>
      match role with
      | LineRole.convStarted =>
        { messages := pushCur st, currentMessage := none,
          earliest := updEarliest st (jsDateParse ts),
          latest := updLatest st (jsDateParse ts) }
      | LineRole.results =>
        { messages := attachIfBot (pushCur st) content, currentMessage := none,
          earliest := updEarliest st (jsDateParse ts),
          latest := updLatest st (jsDateParse ts) }
      | LineRole.user =>
        { messages := pushCur st,
          currentMessage := some { role := some strUser, content := some (jsTrim content),
                                   timestamp := some ts },
          earliest := updEarliest st (jsDateParse ts),
          latest := updLatest st (jsDateParse ts) }
      | LineRole.ai =>
        { messages := pushCur st,
          currentMessage := some { role := some strBot, content := some (jsTrim content),
                                   timestamp := some ts },
          earliest := updEarliest st (jsDateParse ts),
          latest := updLatest st (jsDateParse ts) }
    | none =>
      match st.currentMessage with
      | some m =>
        if (jsTrim line).isEmpty then st
        else
          let m' := { m with content := some (m.content.getD [] ++ ' ' :: jsTrim line) }
          { st with currentMessage := some m' }
      | none => st

/-- The `/session_([a-f0-9-]+)_transcript/i` capture: leftmost occurrence. -/
def sessionIdCaptureTry (s : Str) : Option Str :=
  match matchPrefixCI (("session_").toList) s with
  | none => none
  | some rest =>
    let cap := rest.takeWhile (fun c =>
      isDigitCh c || ('a' ≤ lowerChar c && lowerChar c ≤ 'f') || c == '-')
    if cap.isEmpty then none
    else
      match matchPrefixCI (("_transcript").toList) (rest.drop cap.length) with
      | some _ => some cap
      | none => none

/-- Scan the filename for the session-id pattern. -/
def sessionIdCapture : Str → Option Str
  | [] => sessionIdCaptureTry []
  | c :: rest =>
    match sessionIdCaptureTry (c :: rest) with
    | some cap => some cap
    | none => sessionIdCapture rest

/-- Render a tracked date bound: `none` for null, the ISO string otherwise;
an Invalid Date has already been excluded by the caller. -/
def isoOrNull (d : Option (Option Int)) : Option Str :=
  match d with
  | some (some ms) => some (toISOString ms)
  | _ => none

/-- Model of `parseTimestampedTranscript` (helpers.js). The whole file is one
conversation: `CONVERSATION STARTED` markers only reset the open message.
The result is `none` exactly when the final metadata construction would
throw — `toISOString` on an Invalid Date (a matched line whose timestamp
text is not a valid date and that poisoned the tracked range). -/
def parseTimestampedTranscript (content filename : Str) : Option (List Transcript) :=
  let lines := splitOnChar '\n' content
  let st := lines.foldl tsStep {}
  let msgs := pushCur st
  let sessionId :=
    match sessionIdCapture filename with
    | some cap => cap
    | none => filename
  match st.earliest, st.latest with
  | some none, _ => none
  | _, some none => none
  | e, l =>
    some [{ id := some sessionId, messages := msgs,
            metadata := { timestamp := isoOrNull e,
                          dateRangeStart := isoOrNull e,
                          dateRangeEnd := isoOrNull l,
                          sourceFile := some filename,
                          format := some (("timestamped").toList) } }]

/- ## The loose-text parser (helpers.js, parseSimpleTextTranscript) -/

/-- Anchored match of `^(alt1|alt2|...)\s*[:\-]\s*(.+)` (case-insensitive):
try each alternative keyword, then optional space, a colon or dash, optional
space, and a non-empty rest-of-line capture (`.` excludes line terminators). -/
def matchRolePrefix (alts : List Str) (line : Str) : Option Str :=
  match alts with
  | [] => none
  | a :: rest =>
    match matchPrefixCI a line with
    | some r1 =>
      match (r1.dropWhile isWS) with
      | c :: r2 =>
        if c == ':' || c == '-' then
          let body := (r2.dropWhile isWS).takeWhile (fun ch => !(ch == '\n' || ch == '\r'))
          if body.isEmpty then matchRolePrefix rest line else some body
        else matchRolePrefix rest line
      | [] => matchRolePrefix rest line
    | none => matchRolePrefix rest line

/-- The user-role alternatives of the loose grammar. -/
def looseUserAlts : List Str :=
  [("user").toList, ("customer").toList, ("human").toList, ("visitor").toList]

/-- The bot-role alternatives of the loose grammar. -/
def looseBotAlts : List Str :=
  [("bot").toList, ("assistant").toList, ("agent").toList, ("chatbot").toList, ("ai").toList]

/-- The session-delimiter alternatives of the loose grammar. -/
def looseSessionAlts : List Str := [("session").toList, ("conversation").toList]

/-- Loop state of the loose-text parser. -/
structure SimpleState where
  conversations : List Transcript := []
  current : Transcript := {}

/-- One line of the `parseSimpleTextTranscript` loop. -/
def simpleStep (st : SimpleState) (line : Str) : SimpleState :=
  match matchRolePrefix looseSessionAlts line with
  | some rest =>
    let convs :=
      if st.current.messages.isEmpty then st.conversations
      else st.conversations ++ [st.current]
    { conversations := convs, current := { id := some (jsTrim rest) } }
  | none =>
    match matchRolePrefix looseUserAlts line with
    | some rest =>
      { st with current := { st.current with messages :=
          st.current.messages ++ [{ role := some strUser, content := some (jsTrim rest) }] } }
    | none =>
      match matchRolePrefix looseBotAlts line with
      | some rest =>
        { st with current := { st.current with messages :=
            st.current.messages ++ [{ role := some strBot, content := some (jsTrim rest) }] } }
      | none =>
        if st.current.messages.isEmpty then st
        else
          let app := fun (m : JsMessage) =>
            { m with content := some (m.content.getD [] ++ ' ' :: jsTrim line) }
          let cur := { st.current with messages := updateLast app st.current.messages }
          { st with current := cur }

/-- Model of `parseSimpleTextTranscript` (helpers.js). -/
def parseSimpleTextTranscript (content filename : Str) : List Transcript :=
  let lines := (splitOnChar '\n' content).filter (fun l => !(jsTrim l).isEmpty)
  let st := lines.foldl simpleStep { current := { id := some filename } }
  let convs :=
    if st.current.messages.isEmpty then st.conversations
    else st.conversations ++ [st.current]
  if convs.isEmpty then
    [{ id := some filename,
       messages := [{ role := some strUnknown, content := some content }] }]
  else convs

/- ## Format detection (helpers.js, parseTextTranscript) -/

/-- One attempt of the unanchored detector pattern
`\[(\d{4}-\d{2}-\d{2}T[\d:.]+\+[\d:]+)\]\s*(USER|AI|RESULTS|CONVERSATION STARTED)(?:\s*:\s*)?`
(note: here the zone offset is mandatory). -/
def timestampTestAt (s : Str) : Bool :=
  (do
    let r0 ← expectChar '[' s
    let (_, r1) ← takeExact isDigitCh 4 r0
    let r2 ← expectChar '-' r1
    let (_, r3) ← takeExact isDigitCh 2 r2
    let r4 ← expectChar '-' r3
    let (_, r5) ← takeExact isDigitCh 2 r4
    let r6 ← expectChar 'T' r5
    let body := r6.takeWhile (fun c => isDigitCh c || c == ':' || c == '.')
    if body.isEmpty then none else
      let r7 ← expectChar '+' (r6.drop body.length)
      let off := r7.takeWhile (fun c => isDigitCh c || c == ':')
      if off.isEmpty then none else
        let r9 ← expectChar ']' (r7.drop off.length)
        let r10 := r9.dropWhile isWS
        match matchPrefixCI (("user").toList) r10 with
        | some _ => some ()
        | none =>
          match matchPrefixCI (("ai").toList) r10 with
          | some _ => some ()
          | none =>
            match matchPrefixCI (("results").toList) r10 with
            | some _ => some ()
            | none =>
              match matchPrefixCI (("conversation started").toList) r10 with
              | some _ => some ()
              | none => none).isSome

/-- Model of `timestampPattern.test(content)`: the detector pattern matches
somewhere in the content. -/
def timestampPatternTest : Str → Bool
  | [] => timestampTestAt []
  | c :: rest => timestampTestAt (c :: rest) || timestampPatternTest rest

/-- Model of `parseTextTranscript` (helpers.js): choose the timestamped
grammar when the detector pattern occurs anywhere, else the loose grammar.
`none` models the timestamped parser throwing. -/
def parseTextTranscript (content filename : Str) : Option (List Transcript) :=
  if timestampPatternTest content then parseTimestampedTranscript content filename
  else some (parseSimpleTextTranscript content filename)

/- ## The session normalizer (transcriptParser.js) -/

/-- One per-file parse result as `parseUploadedFiles` produces it. -/
structure ParsedResult where
  filename : Str
  transcripts : List Transcript := []
  error : Option Str := none

/-- User-role name variants. -/
def userRolesList : List Str :=
  [("user").toList, ("customer").toList, ("human").toList, ("visitor").toList,
   ("client").toList]

/-- Bot-role name variants. -/
def botRolesList : List Str :=
  [("bot").toList, ("assistant").toList, ("agent").toList, ("chatbot").toList,
   ("ai").toList, ("system").toList]

/-- Model of `normalizeRole`: case-insensitive membership in the two variant
lists, else `unknown`. -/
def normalizeRole (role : Str) : Str :=
  if userRolesList.contains (lowerStr role) then strUser
  else if botRolesList.contains (lowerStr role) then strBot
  else strUnknown

/-- The `msg.role || msg.sender || 'unknown'` chain. -/
def rawRoleOf (m : JsMessage) : Str :=
  if truthyS m.role then m.role.getD []
  else if truthyS m.sender then m.sender.getD []
  else strUnknown

/-- The `msg.content || msg.text || msg.message || ''` chain. -/
def rawContentOf (m : JsMessage) : Str :=
  if truthyS m.content then m.content.getD []
  else if truthyS m.text then m.text.getD []
  else if truthyS m.message then m.message.getD []
  else []

/-- Normalize one message at position `index` (the body of the
`normalizeMessages` map). -/
def normMsgAt (index : Nat) (m : JsMessage) : JsMessage :=
  { id := jsOrS m.id (some (("msg-").toList ++ natToDigits index)),
    role := some (normalizeRole (rawRoleOf m)),
    content := some (rawContentOf m),
    timestamp := if truthyS m.timestamp then m.timestamp else none,
    results := m.results }

/-- The indexed map underlying `normalizeMessages`. -/
def normalizeMessagesFrom (index : Nat) : List JsMessage → List JsMessage
  | [] => []
  | m :: rest => normMsgAt index m :: normalizeMessagesFrom (index + 1) rest

/-- Model of `normalizeMessages` (transcriptParser.js). -/
def normalizeMessages (ms : List JsMessage) : List JsMessage := normalizeMessagesFrom 0 ms

/-- Join strings with single spaces (`Array.prototype.join(' ')`). -/
def joinSpace : List Str → Str
  | [] => []
  | [x] => x
  | x :: rest => x ++ ' ' :: joinSpace rest

/-- The lower-cased, space-joined message contents that the two phrase
detectors search. -/
def joinedContents (ms : List JsMessage) : Str :=
  joinSpace (ms.map (fun m => lowerStr (m.content.getD [])))

/-- Escalation phrase list of `detectEscalation`. -/
def escalationPhrases : List Str :=
  [("speak to a human").toList, ("speak to someone").toList, ("transfer me").toList,
   ("real person").toList, ("human agent").toList, ("customer service").toList,
   ("supervisor").toList, ("manager").toList, ("escalate").toList,
   (("can").toList ++ [squote] ++ ("t help").toList),
   (("don").toList ++ [squote] ++ ("t understand").toList)]

/-- Order phrase list of `detectOrder`. -/
def orderPhrases : List Str :=
  [("order number").toList, ("order status").toList, ("tracking").toList,
   ("shipment").toList, ("delivery").toList, ("purchase").toList,
   ("bought").toList, ("ordered").toList, ("payment").toList, ("receipt").toList]

/-- Model of `detectEscalation`. -/
def detectEscalation (ms : List JsMessage) : Bool :=
  escalationPhrases.any (fun p => containsSub p (joinedContents ms))

/-- Model of `detectOrder`. -/
def detectOrder (ms : List JsMessage) : Bool :=
  orderPhrases.any (fun p => containsSub p (joinedContents ms))

/-- Model of `countUserTurns`: count of messages whose `role` field (only —
`sender` is not consulted here) normalizes to `user`. -/
def countUserTurns (ms : List JsMessage) : Nat :=
  (ms.filter (fun m =>
    normalizeRole (if truthyS m.role then m.role.getD [] else []) == strUser)).length

/-- Model of `countBotTurns`. -/
def countBotTurns (ms : List JsMessage) : Nat :=
  (ms.filter (fun m =>
    normalizeRole (if truthyS m.role then m.role.getD [] else []) == strBot)).length

/-- Normalize one transcript of one parse result (the body of the
`normalizeTranscripts` inner loop). `gid` stands in for the impure
`generateId()` value. -/
def normalizeOneTranscript (gid : Str) (filename : Str) (t : Transcript) : Transcript :=
  { id := jsOrS t.id (some gid),
    sourceFile := some filename,
    messages := normalizeMessages t.messages,
    metadata := { t.metadata with
      messageCount := some t.messages.length,
      hasEscalation := some (detectEscalation t.messages),
      hasOrder := some (detectOrder t.messages),
      userTurns := some (countUserTurns t.messages),
      botTurns := some (countBotTurns t.messages) } }

/-- Model of `normalizeTranscripts` (transcriptParser.js): results carrying a
truthy error are skipped; every transcript of the rest is normalized. -/
def normalizeTranscripts (gid : Str) (results : List ParsedResult) : List Transcript :=
  results.foldl (fun acc r =>
    if truthyS r.error then acc
    else acc ++ r.transcripts.map (normalizeOneTranscript gid r.filename)) []

/- ## Rounding helpers of the engine -/

/-- Model of `parseFloat(x.toFixed(d))` for the non-negative averages and
percentages of the engine (exact rational rounding; binary-double artifacts
are immaterial at the values involved, and no claim depends on them). -/
def jsToFixed (d : Nat) (q : ℚ) : ℚ := ((round (q * (10 : ℚ) ^ d) : ℤ) : ℚ) / (10 : ℚ) ^ d

/-- Model of `Math.round`. -/
def jsRound (q : ℚ) : ℤ := round q

/- ## The metrics snapshot shape -/

/-- One deduplicated query with its display casing and frequency. -/
structure QueryFreq where
  query : Str
  frequency : Nat
deriving DecidableEq

/-- The engine's date range sub-object. `rangeStart`/`rangeEnd` model the
`start`/`end` keys (display strings; the en-US locale rendering of
`formatTimestamp` is abstracted to the ISO form — no claim reads these). -/
structure DateRangeR where
  rangeStart : Option Str := none
  rangeEnd : Option Str := none
  startRaw : Option Str := none
  endRaw : Option Str := none
  totalDays : Nat := 0

/-- Session overview sub-report. -/
structure SessionOverviewR where
  totalSessions : Nat
  dateRange : DateRangeR

/-- Turn analysis sub-report; the two total fields are absent from the
empty-metrics shape. -/
structure TurnAnalysisR where
  singleTurnSessions : Nat
  multiTurnSessions : Nat
  avgTurnsPerSession : ℚ
  maxTurnsInSession : Nat
  totalUserMessages : Option Nat := none
  totalBotMessages : Option Nat := none

/-- Query length sub-object. -/
structure QueryLengthR where
  singleWordQueries : Nat
  multiWordQueries : Nat
  avgWordsPerQuery : ℚ

/-- One term of the term-frequency table. -/
structure TermCount where
  term : Str
  count : Nat

/-- Query analysis sub-report; `uniqueQueryCount` and `allUniqueQueries` are
absent from the empty-metrics shape. -/
structure QueryAnalysisR where
  totalQueries : Nat
  uniqueQueryCount : Option Nat := none
  uniqueQueries : List QueryFreq
  allUniqueQueries : Option (List QueryFreq) := none
  queryLengthAnalysis : QueryLengthR
  topSearchTerms : List TermCount

/-- One recommended product with its frequency and associated queries. -/
structure ProductRec where
  productId : Str
  frequency : Nat
  associatedQueries : List Str

/-- One style with its frequency and example queries. -/
structure StyleRec where
  style : Str
  frequency : Nat
  exampleQueries : List Str

/-- Style aggregation sub-object; `totalStyleMentions` and `allStyles` are
absent from the empty-metrics shape. -/
structure StyleAnalysisR where
  totalStyles : Nat
  totalStyleMentions : Option Nat := none
  topStyles : List StyleRec
  allStyles : Option (List Str) := none

/-- Product insights sub-report; `allProductIds` is absent from the
empty-metrics shape. -/
structure ProductInsightsR where
  totalProductsRecommended : Nat
  uniqueProductsRecommended : Nat
  topRecommendedProducts : List ProductRec
  allProductIds : Option (List Str) := none
  styleAnalysis : StyleAnalysisR

/-- A count with its percentage. -/
structure CountPct where
  count : Nat
  percentage : ℚ

/-- A clarifying-question example: the content slice and the session id. -/
structure ClarifyEx where
  content : Str
  sessionId : Option Str

/-- Clarifying-questions sub-object. -/
structure ClarifyingR where
  count : Nat
  examples : List ClarifyEx

/-- Bot response analysis sub-report. -/
structure BotResponseR where
  sessionsWithResults : CountPct
  sessionsWithoutResults : CountPct
  avgProductsReturned : ℚ
  clarifyingQuestions : ClarifyingR

/-- Time patterns sub-report; `dailyDistribution` is absent from the
empty-metrics shape. -/
structure TimePatternsR where
  busiestHour : Option Str
  busiestDay : Option Str
  hourlyDistribution : JsObj Nat
  dailyDistribution : Option (JsObj Nat) := none

/-- Data quality notes; `dataLimitations` is absent from the empty-metrics
shape. -/
structure DataQualityR where
  totalTranscriptsAnalyzed : Nat
  extractionMethod : Str
  dataLimitations : Option (List Str) := none

/-- The full rule-based metrics snapshot. -/
structure MetricsSnapshot where
  sessionOverview : SessionOverviewR
  turnAnalysis : TurnAnalysisR
  queryAnalysis : QueryAnalysisR
  productInsights : ProductInsightsR
  botResponseAnalysis : BotResponseR
  timePatterns : TimePatternsR
  dataQualityNotes : DataQualityR

/- ## Session overview (analysisEngine.js, extractSessionOverview) -/

/-- All valid timestamps collected from message timestamps and session-level
date-range bounds, in the engine's visiting order (epoch milliseconds). -/
def collectTimestamps (transcripts : List Transcript) : List Int :=
  transcripts.foldl (fun acc t =>
    let fromMsgs := t.messages.foldl (fun a m =>
      if truthyS m.timestamp then
        match jsDateParse (m.timestamp.getD []) with
        | some d => a ++ [d]
        | none => a
      else a) acc
    let withStart :=
      match t.metadata.dateRangeStart with
      | some s =>
        match jsDateParse s with
        | some d => fromMsgs ++ [d]
        | none => fromMsgs
      | none => fromMsgs
    match t.metadata.dateRangeEnd with
    | some s =>
      match jsDateParse s with
      | some d => withStart ++ [d]
      | none => withStart
    | none => withStart) []

/-- Model of `formatTimestamp` (the en-US locale rendering is abstracted to
the ISO form; no claim reads the formatted value). -/
def formatTimestamp (ms : Int) : Str := toISOString ms

/-- Model of `extractSessionOverview`. -/
def extractSessionOverview (transcripts : List Transcript) : SessionOverviewR :=
  let timestamps := collectTimestamps transcripts
  let dateRange : DateRangeR :=
    match timestamps with
    | [] => {}
    | t0 :: rest =>
      let startMs := rest.foldl (fun a b => if b < a then b else a) t0
      let endMs := rest.foldl (fun a b => if a < b then b else a) t0
      let diff := (endMs - startMs).toNat
      let totalDays := (diff + 86399999) / 86400000 + 1
      { rangeStart := some (formatTimestamp startMs),
        rangeEnd := some (formatTimestamp endMs),
        startRaw := some (toISOString startMs),
        endRaw := some (toISOString endMs),
        totalDays := max 1 totalDays }
  { totalSessions := transcripts.length, dateRange := dateRange }

/- ## Turn analysis (analysisEngine.js, extractTurnAnalysis) -/

/-- User-message count of one session. -/
def userMsgCount (t : Transcript) : Nat :=
  (t.messages.filter (fun m => m.role == some strUser)).length

/-- Bot-message count of one session. -/
def botMsgCount (t : Transcript) : Nat :=
  (t.messages.filter (fun m => m.role == some strBot)).length

/-- Model of `extractTurnAnalysis`. -/
def extractTurnAnalysis (transcripts : List Transcript) : TurnAnalysisR :=
  let counts := transcripts.map userMsgCount
  let totalUserTurns : Nat := counts.foldl (· + ·) 0
  { singleTurnSessions := (counts.filter (fun c => c == 1)).length,
    multiTurnSessions := (counts.filter (fun c => 1 < c)).length,
    avgTurnsPerSession :=
      if 0 < transcripts.length then
        jsToFixed 2 ((totalUserTurns : ℚ) / (transcripts.length : ℚ))
      else 0,
    maxTurnsInSession := counts.foldl max 0,
    totalUserMessages := some totalUserTurns,
    totalBotMessages := some ((transcripts.map botMsgCount).foldl (· + ·) (0 : Nat)) }

/- ## Query analysis (analysisEngine.js, extractQueryAnalysis) -/

/-- The trimmed user queries of a session list, in visiting order (one entry
per user message with truthy content). -/
def userQueries (transcripts : List Transcript) : List Str :=
  transcripts.foldl (fun acc t =>
    t.messages.foldl (fun a m =>
      if m.role == some strUser && truthyS m.content then
        a ++ [jsTrim (m.content.getD [])]
      else a) acc) []

/-- The query-frequency table: keyed by the lower-cased query, carrying the
first-seen casing and a count. -/
def queryFreqTable (qs : List Str) : JsObj QueryFreq :=
  qs.foldl (fun tbl q =>
    let k := lowerStr q
    match objGet tbl k with
    | some e => objSet tbl k { e with frequency := e.frequency + 1 }
    | none => objSet tbl k { query := q, frequency := 1 }) []

/-- Character-at-a-time accumulator for `wordsOf` (`cur` holds the pending
word reversed). -/
def wordsOfAux (cur : Str) : Str → List Str
  | [] => if cur.isEmpty then [] else [cur.reverse]
  | c :: rest =>
    if isWS c then
      if cur.isEmpty then wordsOfAux [] rest
      else cur.reverse :: wordsOfAux [] rest
    else wordsOfAux (c :: cur) rest

/-- Words of a string: `split(/\s+/).filter(w => w.length > 0)`. -/
def wordsOf (s : Str) : List Str := wordsOfAux [] s

/-- The engine's stop-word set. -/
def stopWords : List Str :=
  [("a").toList, ("an").toList, ("the").toList, ("is").toList, ("are").toList,
   ("was").toList, ("were").toList, ("for").toList, ("of").toList, ("to").toList,
   ("in").toList, ("on").toList, ("with").toList, ("i").toList, ("me").toList,
   ("my").toList, ("you").toList, ("your").toList, ("it").toList, ("and").toList,
   ("or").toList, ("but").toList, ("do").toList, ("does").toList, ("can").toList,
   ("will").toList, ("what").toList, ("how").toList, ("where").toList,
   ("when").toList, ("any").toList, ("have").toList, ("has").toList]

/-- Model of `extractQueryAnalysis`. -/
def extractQueryAnalysis (transcripts : List Transcript) : QueryAnalysisR :=
  let allQueries := userQueries transcripts
  let uniqueQueries := sortDescBy (fun e => e.frequency) (objValuesES (queryFreqTable allQueries))
  let wordCounts := allQueries.map (fun q => (wordsOf q).length)
  let totalWords : Nat := wordCounts.foldl (· + ·) 0
  let wordFrequency := allQueries.foldl (fun tbl q =>
    let ws := (wordsOf (lowerStr q)).filter (fun w => 2 < w.length && !(stopWords.contains w))
    ws.foldl (fun tb w => objSet tb w ((objGet tb w).getD 0 + 1)) tbl) []
  let topSearchTerms := ((sortDescBy (fun e => e.snd) (objEntriesES wordFrequency)).take 20).map
    (fun e => { term := e.fst, count := e.snd })
  { totalQueries := allQueries.length,
    uniqueQueryCount := some uniqueQueries.length,
    uniqueQueries := uniqueQueries.take 50,
    allUniqueQueries := some uniqueQueries,
    queryLengthAnalysis :=
      { singleWordQueries := (wordCounts.filter (fun c => c == 1)).length,
        multiWordQueries := (wordCounts.filter (fun c => !(c == 1))).length,
        avgWordsPerQuery :=
          if 0 < allQueries.length then
            jsToFixed 2 ((totalWords : ℚ) / (allQueries.length : ℚ))
          else 0 },
    topSearchTerms := topSearchTerms }

/- ## Product insights (analysisEngine.js, extractProductInsights) -/

/-- JavaScript truthiness of a JSON value. -/
def jvTruthy (v : JVal) : Bool :=
  match v with
  | JVal.jstr s => !s.isEmpty
  | JVal.jnum q => !(q == 0)
  | JVal.jbool b => b
  | JVal.jnull => false
  | JVal.jarr _ => true
  | JVal.jobj _ => true

/-- Model of `Set.prototype.add`: insertion-ordered, duplicates ignored. -/
def setAdd (l : List Str) (x : Str) : List Str :=
  if l.contains x then l else l ++ [x]

/-- The session query that product/style occurrences are associated with:
content of the first user message, or `unknown`. -/
def sessionUserQuery (t : Transcript) : Str :=
  match t.messages.find? (fun m => m.role == some strUser) with
  | some m => if truthyS m.content then m.content.getD [] else ("unknown").toList
  | none => ("unknown").toList

/-- Accumulator of the product-insights loop. -/
structure PIState where
  allProductIds : List Str := []
  productFrequency : JsObj Nat := []
  allStyles : List Str := []
  styleFrequency : JsObj Nat := []
  productToQueries : JsObj (List Str) := []
  styleToQueries : JsObj (List Str) := []

/-- Fold one message of one session into the product-insights accumulator. -/
def piStepMsg (userQuery : Str) (st : PIState) (m : JsMessage) : PIState :=
  match m.results with
  | some res =>
    if m.role == some strBot then
      let st1 :=
        match res.products with
        | some products =>
          if jvTruthy products then
            (flattenProducts products).foldl (fun s pid =>
              { s with
                allProductIds := s.allProductIds ++ [pid],
                productFrequency := objSet s.productFrequency pid
                  ((objGet s.productFrequency pid).getD 0 + 1),
                productToQueries := objSet s.productToQueries pid
                  (setAdd ((objGet s.productToQueries pid).getD []) userQuery) }) st
          else st
        | none => st
      match res.styles with
      | some styles =>
        styles.foldl (fun s style =>
          if !style.isEmpty && !(jsTrim style).isEmpty then
            let ns := jsTrim style
            { s with
              allStyles := s.allStyles ++ [ns],
              styleFrequency := objSet s.styleFrequency ns
                ((objGet s.styleFrequency ns).getD 0 + 1),
              styleToQueries := objSet s.styleToQueries ns
                (setAdd ((objGet s.styleToQueries ns).getD []) userQuery) }
          else s) st1
      | none => st1
    else st
  | none => st

/-- Model of `extractProductInsights`. -/
def extractProductInsights (transcripts : List Transcript) : ProductInsightsR :=
  let st := transcripts.foldl (fun s t =>
    t.messages.foldl (piStepMsg (sessionUserQuery t)) s) {}
  let topRecommendedProducts :=
    ((sortDescBy (fun e => e.snd) (objEntriesES st.productFrequency)).take 20).map
      (fun e => { productId := e.fst, frequency := e.snd,
                  associatedQueries := (objGet st.productToQueries e.fst).getD [] })
  let topStyles :=
    (sortDescBy (fun e => e.snd) (objEntriesES st.styleFrequency)).map
      (fun e => { style := e.fst, frequency := e.snd,
                  exampleQueries := ((objGet st.styleToQueries e.fst).getD []).take 5 })
  let uniqueProductIds := st.allProductIds.foldl setAdd []
  { totalProductsRecommended := st.allProductIds.length,
    uniqueProductsRecommended := uniqueProductIds.length,
    topRecommendedProducts := topRecommendedProducts,
    allProductIds := some uniqueProductIds,
    styleAnalysis :=
      { totalStyles := (objKeysES st.styleFrequency).length,
        totalStyleMentions := some st.allStyles.length,
        topStyles := topStyles,
        allStyles := some (objKeysES st.styleFrequency) } }

/- ## Bot response analysis (analysisEngine.js, extractBotResponseAnalysis) -/

/-- Word-character test (`\w`). -/
def isWordCh (c : Char) : Bool :=
  isDigitCh c || ('a' ≤ lowerChar c && lowerChar c ≤ 'z') || c == '_'

/-- Try `lead` (case-insensitively) at the start of `s`, followed by one of
`alts` (an empty alternative list means nothing more is required). -/
def tryLeadAlts (lead : Str) (alts : List Str) (s : Str) : Bool :=
  match matchPrefixCI lead s with
  | none => false
  | some rest =>
    match alts with
    | [] => true
    | _ => alts.any (fun a => (matchPrefixCI a rest).isSome)

/-- Unanchored search for `lead` followed directly by one of `alts`. -/
def searchPat (lead : Str) (alts : List Str) : Str → Bool
  | [] => tryLeadAlts lead alts []
  | c :: rest => tryLeadAlts lead alts (c :: rest) || searchPat lead alts rest

/-- Try `lead`, then `\s+`, then one of `alts`, at the start of `s`. -/
def tryLeadWsAlts (lead : Str) (alts : List Str) (s : Str) : Bool :=
  match matchPrefixCI lead s with
  | none => false
  | some rest =>
    let ws := rest.takeWhile isWS
    !ws.isEmpty && alts.any (fun a => (matchPrefixCI a (rest.drop ws.length)).isSome)

/-- Unanchored search for `lead`, whitespace, one of `alts`. -/
def searchPatWs (lead : Str) (alts : List Str) : Str → Bool
  | [] => tryLeadWsAlts lead alts []
  | c :: rest => tryLeadWsAlts lead alts (c :: rest) || searchPatWs lead alts rest

/-- Whether any of the seven clarifying-question patterns matches the
content (each is a case-insensitive substring pattern). -/
def isClarifyingQuestion (content : Str) : Bool :=
  searchPatWs (("which").toList)
    [("location").toList, ("state").toList, ("city").toList, ("area").toList,
     ("option").toList] content
  || searchPat (("would you like me to").toList) [] content
  || searchPat (("can you ").toList)
       [("tell").toList, ("clarify").toList, ("specify").toList] content
  || searchPat (("what ").toList)
       [("type").toList, ("kind").toList, ("model").toList, ("year").toList] content
  || searchPat (("are you looking for").toList) [] content
  || searchPat (("do you ").toList)
       [("want").toList, ("need").toList, ("prefer").toList] content
  || searchPat (("could you ").toList)
       [("be more specific").toList, ("clarify").toList] content

/-- Accumulator of the bot-response loop. -/
structure BRState where
  sessionsWithResults : Nat := 0
  sessionsWithoutResults : Nat := 0
  totalProductsInResults : Nat := 0
  resultsCount : Nat := 0
  clarifying : List ClarifyEx := []

/-- Per-session accumulator of the bot-response inner loop. -/
structure BRInner where
  hasResults : Bool := false
  totalProducts : Nat := 0
  resultsCount : Nat := 0
  clarifying : List ClarifyEx := []

/-- Fold one session into the bot-response accumulator. -/
def brStepTranscript (st : BRState) (t : Transcript) : BRState :=
  let inner := t.messages.foldl (fun s m =>
    if m.role == some strBot then
      let s1 :=
        match m.results with
        | some res =>
          match res.products with
          | some products =>
            if jvTruthy products then
              { s with hasResults := true,
                       totalProducts := s.totalProducts + (flattenProducts products).length,
                       resultsCount := s.resultsCount + 1 }
            else { s with hasResults := true }
          | none => { s with hasResults := true }
        | none => s
      if truthyS m.content && isClarifyingQuestion (m.content.getD []) then
        { s1 with clarifying := s1.clarifying ++
            [{ content := (m.content.getD []).take 200, sessionId := t.id }] }
      else s1
    else s)
    ({ hasResults := false, totalProducts := 0, resultsCount := 0, clarifying := [] } :
      BRInner)
  { sessionsWithResults := st.sessionsWithResults + (if inner.hasResults then 1 else 0),
    sessionsWithoutResults := st.sessionsWithoutResults + (if inner.hasResults then 0 else 1),
    totalProductsInResults := st.totalProductsInResults + inner.totalProducts,
    resultsCount := st.resultsCount + inner.resultsCount,
    clarifying := st.clarifying ++ inner.clarifying }

/-- Model of `extractBotResponseAnalysis`. -/
def extractBotResponseAnalysis (transcripts : List Transcript) : BotResponseR :=
  let st := transcripts.foldl brStepTranscript {}
  let totalSessions := transcripts.length
  { sessionsWithResults :=
      { count := st.sessionsWithResults,
        percentage :=
          if 0 < totalSessions then
            jsToFixed 1 ((st.sessionsWithResults : ℚ) / (totalSessions : ℚ) * 100)
          else 0 },
    sessionsWithoutResults :=
      { count := st.sessionsWithoutResults,
        percentage :=
          if 0 < totalSessions then
            jsToFixed 1 ((st.sessionsWithoutResults : ℚ) / (totalSessions : ℚ) * 100)
          else 0 },
    avgProductsReturned :=
      if 0 < st.resultsCount then
        jsToFixed 1 ((st.totalProductsInResults : ℚ) / (st.resultsCount : ℚ))
      else 0,
    clarifyingQuestions := { count := st.clarifying.length, examples := st.clarifying.take 10 } }

/- ## Time patterns (analysisEngine.js, extractTimePatterns) -/

/-- Model of `formatHour`. -/
def formatHour (hour : Nat) : Str :=
  let period := if 12 ≤ hour then ("PM").toList else ("AM").toList
  let displayHour := if hour % 12 == 0 then 12 else hour % 12
  let nextHour := (hour + 1) % 24
  let nextPeriod := if 12 ≤ nextHour then ("PM").toList else ("AM").toList
  let nextDisplayHour := if nextHour % 12 == 0 then 12 else nextHour % 12
  natToDigits displayHour ++ (":00 ").toList ++ period ++ (" - ").toList
    ++ natToDigits nextDisplayHour ++ (":00 ").toList ++ nextPeriod

/-- First entry of an object whose count is strictly larger than every count
seen before it (the `count > max` scan of the engine); `none` on the empty
object. -/
def firstMaxEntry (entries : JsObj Nat) : Option (Str × Nat) :=
  entries.foldl (fun best e =>
    match best with
    | none => if 0 < e.snd then some e else none
    | some b => if b.snd < e.snd then some e else best) none

/-- Model of `extractTimePatterns`. The host-zone `getHours`/`getDay` are
read at UTC (the analyzer runs in an unspecified browser zone; no claim
depends on the bucket values). -/
def extractTimePatterns (transcripts : List Transcript) : TimePatternsR :=
  let st := transcripts.foldl (fun (acc : JsObj Nat × JsObj Nat) t =>
    match t.messages.head? with
    | some m =>
      if truthyS m.timestamp then
        match jsDateParse (m.timestamp.getD []) with
        | some d =>
          let hourKey := natToDigits (epochHour d)
          let dayKey := (dayNames.get? (epochWeekday d)).getD []
          (objSet acc.1 hourKey ((objGet acc.1 hourKey).getD 0 + 1),
           objSet acc.2 dayKey ((objGet acc.2 dayKey).getD 0 + 1))
        | none => acc
      else acc
    | none => acc) ([], [])
  let busiestHour := (firstMaxEntry (objEntriesES st.1)).map
    (fun e => formatHour (natOfDigits e.fst))
  let busiestDay := (firstMaxEntry (objEntriesES st.2)).map (fun e => e.fst)
  { busiestHour := busiestHour,
    busiestDay := busiestDay,
    hourlyDistribution := st.1,
    dailyDistribution := some st.2 }

/- ## Empty metrics and the top-level extractor (analysisEngine.js) -/

/-- Model of `getEmptyMetrics`: the zero-valued snapshot returned for an
empty or missing transcript list. Fields set to `none` here are keys the
empty-case object simply does not carry. -/
def getEmptyMetrics : MetricsSnapshot :=
  { sessionOverview :=
      { totalSessions := 0,
        dateRange := { rangeStart := none, rangeEnd := none, totalDays := 0 } },
    turnAnalysis :=
      { singleTurnSessions := 0, multiTurnSessions := 0, avgTurnsPerSession := 0,
        maxTurnsInSession := 0, totalUserMessages := none, totalBotMessages := none },
    queryAnalysis :=
      { totalQueries := 0, uniqueQueryCount := none, uniqueQueries := [],
        allUniqueQueries := none,
        queryLengthAnalysis :=
          { singleWordQueries := 0, multiWordQueries := 0, avgWordsPerQuery := 0 },
        topSearchTerms := [] },
    productInsights :=
      { totalProductsRecommended := 0, uniqueProductsRecommended := 0,
        topRecommendedProducts := [], allProductIds := none,
        styleAnalysis :=
          { totalStyles := 0, totalStyleMentions := none, topStyles := [],
            allStyles := none } },
    botResponseAnalysis :=
      { sessionsWithResults := { count := 0, percentage := 0 },
        sessionsWithoutResults := { count := 0, percentage := 100 },
        avgProductsReturned := 0,
        clarifyingQuestions := { count := 0, examples := [] } },
    timePatterns :=
      { busiestHour := none, busiestDay := none, hourlyDistribution := [],
        dailyDistribution := none },
    dataQualityNotes :=
      { totalTranscriptsAnalyzed := 0, extractionMethod := ("rule-based").toList,
        dataLimitations := none } }

/-- The fixed limitation strings of the non-empty data-quality notes. -/
def dataLimitationStrings : List Str :=
  [("No user engagement/click data available").toList,
   ("No conversion or purchase data").toList,
   ("Cannot determine user satisfaction").toList]

/-- Model of `extractRuleBasedMetrics` (analysisEngine.js). -/
def extractRuleBasedMetrics (transcripts : List Transcript) : MetricsSnapshot :=
  if transcripts.isEmpty then getEmptyMetrics
  else
    { sessionOverview := extractSessionOverview transcripts,
      turnAnalysis := extractTurnAnalysis transcripts,
      queryAnalysis := extractQueryAnalysis transcripts,
      productInsights := extractProductInsights transcripts,
      botResponseAnalysis := extractBotResponseAnalysis transcripts,
      timePatterns := extractTimePatterns transcripts,
      dataQualityNotes :=
        { totalTranscriptsAnalyzed := transcripts.length,
          extractionMethod := ("rule-based").toList,
          dataLimitations := some dataLimitationStrings } }

/- ## Behavioral classifier (analysisEngine.js, extractUserBehavior)

The five `patterns` regexes are modelled as executable matchers. `\b` is the
standard word boundary: the two sides of the position differ in word-char
membership. The scan tries the pattern at every position, tracking the
previous character for the boundary test. -/

/-- Whether the previous character fails the word test (so `\b` holds before
a word-character-initial alternative). -/
def prevNonWord (prev : Option Char) : Bool :=
  match prev with
  | none => true
  | some c => !isWordCh c

/-- Whether the previous character is a word character (so `\b` holds before
a non-word character such as `$`). -/
def prevIsWord (prev : Option Char) : Bool :=
  match prev with
  | none => false
  | some c => isWordCh c

/-- Unanchored scan running `test` at every position with the previous
character in hand. -/
def scanWithPrev (test : Option Char → Str → Bool) : Option Char → Str → Bool
  | prev, [] => test prev []
  | prev, c :: rest => test prev (c :: rest) || scanWithPrev test (some c) rest

/-- The first-group alternatives of the location pattern. -/
def locationAlts : List Str :=
  [("near").toList, ("in").toList, ("at").toList, ("around").toList,
   ("close to").toList, ("nearby").toList]

/-- One position of
`/\b(near|in|at|around|close to|nearby)\s+(me|my|location|\w+,?\s*\w*)/i`.
The second group reduces to: the first character after the whitespace run is
a word character (each of its alternatives begins with `\w`, and `\w+,?\s*\w*`
needs nothing more than one word character). -/
def patLocationAt (prev : Option Char) (s : Str) : Bool :=
  prevNonWord prev && locationAlts.any (fun a =>
    match matchPrefixCI a s with
    | some rest =>
      let ws := rest.takeWhile isWS
      !ws.isEmpty &&
        (match rest.drop ws.length with
         | c :: _ => isWordCh c
         | [] => false)
    | none => false)

/-- Model of `patterns.location.test(query)`. -/
def patLocation (q : Str) : Bool := scanWithPrev patLocationAt none q

/-- The word alternatives of the price pattern. -/
def priceWordAlts : List Str :=
  [("price").toList, ("cost").toList, ("under").toList, ("below").toList,
   ("above").toList, ("budget").toList, ("cheap").toList, ("expensive").toList,
   ("affordable").toList]

/-- One position of
`/\b(price|cost|under|below|above|budget|\$\d+|cheap|expensive|affordable)/i`.
For the `\$\d+` alternative the boundary before `$` (a non-word character)
requires the previous character to be a word character. -/
def patPriceAt (prev : Option Char) (s : Str) : Bool :=
  (prevNonWord prev && priceWordAlts.any (fun a => (matchPrefixCI a s).isSome))
  || (prevIsWord prev &&
      (match s with
       | '$' :: c :: _ => isDigitCh c
       | _ => false))

/-- Model of `patterns.price.test(query)`. -/
def patPrice (q : Str) : Bool := scanWithPrev patPriceAt none q

/-- The alternatives of the support pattern (`can'?t` contributes both
spellings). -/
def supportAlts : List Str :=
  [("help").toList, ("issue").toList, ("problem").toList, ("error").toList,
   ("cant").toList, (("can").toList ++ [squote] ++ ("t").toList),
   ("unable").toList, ("locked").toList, ("not working").toList, ("broken").toList]

/-- One position of
`/\b(help|issue|problem|error|can'?t|unable|locked|not working|broken)/i`. -/
def patSupportAt (prev : Option Char) (s : Str) : Bool :=
  prevNonWord prev && supportAlts.any (fun a => (matchPrefixCI a s).isSome)

/-- Model of `patterns.support.test(query)`. -/
def patSupport (q : Str) : Bool := scanWithPrev patSupportAt none q

/-- The alternatives of the natural-language pattern (`i'?m` contributes both
spellings). -/
def naturalLanguageAlts : List Str :=
  [(("i").toList ++ [squote] ++ ("m").toList), ("im").toList, ("i am").toList,
   ("i want").toList, ("i need").toList, ("looking for").toList,
   ("searching for").toList, ("trying to find").toList, ("do you have").toList]

/-- One position of
`/\b(i'?m|i am|i want|i need|looking for|searching for|trying to find|do you have)/i`. -/
def patNaturalLanguageAt (prev : Option Char) (s : Str) : Bool :=
  prevNonWord prev && naturalLanguageAlts.any (fun a => (matchPrefixCI a s).isSome)

/-- Model of `patterns.naturalLanguage.test(query)`. -/
def patNaturalLanguage (q : Str) : Bool := scanWithPrev patNaturalLanguageAt none q

/-- ASCII letter test (`[A-Z]` under the `i` flag). -/
def isAsciiLetter (c : Char) : Bool := 'a' ≤ lowerChar c && lowerChar c ≤ 'z'

/-- One position of
`/\b([A-Z]{2,}\s*[-]?\s*\d+|\d{4,}|model|sku|item\s*#)/i`. -/
def patSpecificItemAt (prev : Option Char) (s : Str) : Bool :=
  prevNonWord prev &&
    ((let letters := s.takeWhile isAsciiLetter
      2 ≤ letters.length &&
        (let r1 := (s.drop letters.length).dropWhile isWS
         let r2 :=
           match r1 with
           | '-' :: t => t.dropWhile isWS
           | _ => r1
         match r2 with
         | c :: _ => isDigitCh c
         | [] => false))
     || 4 ≤ (s.takeWhile isDigitCh).length
     || (matchPrefixCI (("model").toList) s).isSome
     || (matchPrefixCI (("sku").toList) s).isSome
     || (match matchPrefixCI (("item").toList) s with
         | some rest =>
           match rest.dropWhile isWS with
           | '#' :: _ => true
           | _ => false
         | none => false))

/-- Model of `patterns.specificItem.test(query)`. -/
def patSpecificItem (q : Str) : Bool := scanWithPrev patSpecificItemAt none q

/-- One repeated-query example. -/
structure RepeatExample where
  query : Str
  count : Nat
  sessionId : Option Str

/-- Accumulator of the user-behavior loop. -/
structure UBState where
  singleWord : Nat := 0
  simplePhrase : Nat := 0
  advancedSearch : Nat := 0
  naturalLanguage : Nat := 0
  exSingleWord : List Str := []
  exSimplePhrase : List Str := []
  exAdvancedSearch : List Str := []
  exNaturalLanguage : List Str := []
  sessionsWithRepeats : Nat := 0
  totalRepeats : Nat := 0
  repeatExamples : List RepeatExample := []
  productSearch : Nat := 0
  locationQuery : Nat := 0
  priceInquiry : Nat := 0
  supportRequest : Nat := 0
  categoryBrowse : Nat := 0
  specificItem : Nat := 0

/-- Append while the list is below a cap (the `length < 5` example guards). -/
def pushCapped (cap : Nat) (l : List Str) (x : Str) : List Str :=
  if l.length < cap then l ++ [x] else l

/-- The complexity-tier chain of the classifier loop body (`wordCount` is
the query's word count, written inline). -/
def ubComplexityStep (st : UBState) (query : Str) : UBState :=
  if (wordsOf query).length == 1 then
    { st with singleWord := st.singleWord + 1,
              exSingleWord := pushCapped 5 st.exSingleWord query }
  else if patNaturalLanguage query then
    { st with naturalLanguage := st.naturalLanguage + 1,
              exNaturalLanguage := pushCapped 5 st.exNaturalLanguage query }
  else if 5 ≤ (wordsOf query).length || (patLocation query && patPrice query) then
    { st with advancedSearch := st.advancedSearch + 1,
              exAdvancedSearch := pushCapped 5 st.exAdvancedSearch query }
  else
    { st with simplePhrase := st.simplePhrase + 1,
              exSimplePhrase := pushCapped 5 st.exSimplePhrase query }

/-- The support/location intent chain of the classifier loop body. -/
def ubSupportLocationStep (st : UBState) (query : Str) : UBState :=
  if patSupport query then { st with supportRequest := st.supportRequest + 1 }
  else if patLocation query then { st with locationQuery := st.locationQuery + 1 }
  else st

/-- The non-exclusive price flag of the classifier loop body. -/
def ubPriceStep (st : UBState) (query : Str) : UBState :=
  if patPrice query then { st with priceInquiry := st.priceInquiry + 1 } else st

/-- The specific-item/category/product intent chain of the classifier loop
body. -/
def ubItemChainStep (st : UBState) (query : Str) : UBState :=
  if patSpecificItem query then { st with specificItem := st.specificItem + 1 }
  else if (wordsOf query).length ≤ 2 && !patLocation query && !patSupport query then
    { st with categoryBrowse := st.categoryBrowse + 1 }
  else
    { st with productSearch := st.productSearch + 1 }

/-- Classify one non-empty query: the complexity tier chain, then the two
independent intent chains (support/location; specific-item/category/product),
with the non-exclusive price flag in between. -/
def ubClassify (st : UBState) (query : Str) : UBState :=
  ubItemChainStep (ubPriceStep (ubSupportLocationStep (ubComplexityStep st query) query) query) query

/-- The non-empty trimmed queries of one session's user messages
(`msg.content?.trim() || ''`, empty ones skipped). -/
def sessionQueriesOf (t : Transcript) : List Str :=
  (t.messages.filter (fun m => m.role == some strUser)).foldl (fun acc m =>
    let q := jsTrim (m.content.getD [])
    if q.isEmpty then acc else acc ++ [q]) []

/-- Fold one session into the user-behavior accumulator: classify every
query, then run the repeated-query detection on the lower-cased list. -/
def ubStepTranscript (st : UBState) (t : Transcript) : UBState :=
  let queries := sessionQueriesOf t
  let st' := queries.foldl ubClassify st
  let sessionQueries := queries.map lowerStr
  let uniqueInSession := sessionQueries.foldl setAdd []
  if uniqueInSession.length < sessionQueries.length then
    let seen : JsObj Nat := sessionQueries.foldl
      (fun tbl q => objSet tbl q ((objGet tbl q).getD 0 + 1)) []
    let examples := (objEntriesES seen).foldl (fun ex e =>
      if 1 < e.snd && ex.length < 5 then
        ex ++ [{ query := e.fst, count := e.snd, sessionId := t.id }]
      else ex) st'.repeatExamples
    { st' with
      sessionsWithRepeats := st'.sessionsWithRepeats + 1,
      totalRepeats := st'.totalRepeats + (sessionQueries.length - uniqueInSession.length),
      repeatExamples := examples }
  else st'

/-- The per-tier example lists. -/
structure ComplexityExamples where
  singleWord : List Str
  simplePhrase : List Str
  advancedSearch : List Str
  naturalLanguage : List Str

/-- The rounded complexity percentages. -/
structure ComplexityPcts where
  singleWord : ℤ
  simplePhrase : ℤ
  advancedSearch : ℤ
  naturalLanguage : ℤ

/-- The assembled query-complexity report. -/
structure QueryComplexityR where
  singleWord : Nat
  simplePhrase : Nat
  advancedSearch : Nat
  naturalLanguage : Nat
  examples : ComplexityExamples
  total : Nat
  percentages : ComplexityPcts

/-- The assembled repeated-queries report. -/
structure RepeatedQueriesR where
  sessionsWithRepeats : Nat
  totalRepeats : Nat
  examples : List RepeatExample
  percentage : ℤ

/-- The six intent counters. -/
structure IntentCategoriesR where
  productSearch : Nat
  locationQuery : Nat
  priceInquiry : Nat
  supportRequest : Nat
  categoryBrowse : Nat
  specificItem : Nat

/-- One advisory insight (`itype` models the JavaScript `type` key). -/
structure InsightR where
  itype : Str
  title : Str
  message : Str
  recommendation : Str

/-- The assembled user-behavior report. -/
structure UserBehaviorR where
  queryComplexity : QueryComplexityR
  repeatedQueries : RepeatedQueriesR
  intentCategories : IntentCategoriesR
  insights : List InsightR

/-- Decimal rendering of an integer. -/
def intToDigits (n : ℤ) : Str :=
  if n < 0 then '-' :: natToDigits n.natAbs else natToDigits n.toNat

/-- Model of `generateBehaviorInsights`. The interpolated repeated-query
percentage reads `repeats.percentage` off the pre-assembly object, which has
no such key, so the rendered text contains the literal `undefined`. -/
def generateBehaviorInsights (st : UBState) (totalQueries totalSessions : Nat) :
    List InsightR :=
  let singleWordPct : ℚ :=
    if 0 < totalQueries then (st.singleWord : ℚ) / (totalQueries : ℚ) * 100 else 0
  let complexityInsights : List InsightR :=
    if 50 < singleWordPct then
      [{ itype := ("warning").toList,
         title := ("Basic Search Behavior").toList,
         message := intToDigits (jsRound singleWordPct) ++
           ("% of queries are single words. Users may not know the chatbot can handle complex searches.").toList,
         recommendation :=
           (("Consider adding prompts like ").toList ++ [dquote] ++
            ("Try: iPad Pro near Austin under $500").toList ++ [dquote]) }]
    else if st.singleWord < st.advancedSearch then
      [{ itype := ("positive").toList,
         title := ("Advanced Search Usage").toList,
         message := ("Users are leveraging advanced search features with multi-criteria queries.").toList,
         recommendation := ("Continue promoting complex search capabilities.").toList }]
    else []
  let repeatInsights : List InsightR :=
    if (totalSessions : ℚ) * (1 / 10) < (st.sessionsWithRepeats : ℚ) then
      [{ itype := ("warning").toList,
         title := ("Query Repetition Detected").toList,
         message := (("undefined% of sessions have repeated queries, suggesting users aren").toList
           ++ [squote] ++ ("t finding what they need.").toList),
         recommendation := ("Review bot responses for these repeated queries and improve clarity.").toList }]
    else []
  let locationInsights : List InsightR :=
    if (totalQueries : ℚ) * (2 / 10) < (st.locationQuery : ℚ) then
      [{ itype := ("info").toList,
         title := ("Location-Based Searches Popular").toList,
         message := ("Many users include location in their searches.").toList,
         recommendation := ("Ensure location-based filtering is prominent in the UI.").toList }]
    else []
  let supportInsights : List InsightR :=
    if 0 < st.supportRequest then
      [{ itype := ("warning").toList,
         title := ("Support Requests via Chatbot").toList,
         message := natToDigits st.supportRequest ++
           (" queries appear to be support requests, not product searches.").toList,
         recommendation := ("Consider adding a support handoff option for non-product queries.").toList }]
    else []
  complexityInsights ++ repeatInsights ++ locationInsights ++ supportInsights

/-- Model of `getEmptyUserBehavior`. -/
def getEmptyUserBehavior : UserBehaviorR :=
  { queryComplexity :=
      { singleWord := 0, simplePhrase := 0, advancedSearch := 0, naturalLanguage := 0,
        examples := { singleWord := [], simplePhrase := [], advancedSearch := [],
                      naturalLanguage := [] },
        total := 0,
        percentages := { singleWord := 0, simplePhrase := 0, advancedSearch := 0,
                         naturalLanguage := 0 } },
    repeatedQueries := { sessionsWithRepeats := 0, totalRepeats := 0, examples := [],
                         percentage := 0 },
    intentCategories := { productSearch := 0, locationQuery := 0, priceInquiry := 0,
                          supportRequest := 0, categoryBrowse := 0, specificItem := 0 },
    insights := [] }

/-- Model of `extractUserBehavior` (analysisEngine.js). -/
def extractUserBehavior (transcripts : List Transcript) : UserBehaviorR :=
  if transcripts.isEmpty then getEmptyUserBehavior
  else
    let st := transcripts.foldl ubStepTranscript {}
    let totalQueries :=
      st.singleWord + st.simplePhrase + st.advancedSearch + st.naturalLanguage
    let pct := fun (n : Nat) =>
      if 0 < totalQueries then jsRound ((n : ℚ) / (totalQueries : ℚ) * 100) else 0
    { queryComplexity :=
        { singleWord := st.singleWord, simplePhrase := st.simplePhrase,
          advancedSearch := st.advancedSearch, naturalLanguage := st.naturalLanguage,
          examples := { singleWord := st.exSingleWord, simplePhrase := st.exSimplePhrase,
                        advancedSearch := st.exAdvancedSearch,
                        naturalLanguage := st.exNaturalLanguage },
          total := totalQueries,
          percentages := { singleWord := pct st.singleWord,
                           simplePhrase := pct st.simplePhrase,
                           advancedSearch := pct st.advancedSearch,
                           naturalLanguage := pct st.naturalLanguage } },
      repeatedQueries :=
        { sessionsWithRepeats := st.sessionsWithRepeats,
          totalRepeats := st.totalRepeats,
          examples := st.repeatExamples,
          percentage :=
            if 0 < transcripts.length then
              jsRound ((st.sessionsWithRepeats : ℚ) / (transcripts.length : ℚ) * 100)
            else 0 },
      intentCategories :=
        { productSearch := st.productSearch, locationQuery := st.locationQuery,
          priceInquiry := st.priceInquiry, supportRequest := st.supportRequest,
          categoryBrowse := st.categoryBrowse, specificItem := st.specificItem },
      insights := generateBehaviorInsights st totalQueries transcripts.length }

/- ## Concrete inputs used by the theorems -/

/-- File A of the end-to-end scenario: a timestamped log with two
conversations separated by `CONVERSATION STARTED` markers, three user turns
in total, and one RESULTS line. -/
def fileA : Str :=
  ("[2026-01-09T05:09:10.591551+00:00] CONVERSATION STARTED\n[2026-01-09T05:09:11.000000+00:00] USER: red shoes\n[2026-01-09T05:09:12.000000+00:00] AI: here are results\n[2026-01-09T05:09:13.000000+00:00] RESULTS: STYLES: ['Bold']; PRODUCTS [['p1','p2']]\n==========\n[2026-01-09T05:09:14.000000+00:00] CONVERSATION STARTED\n[2026-01-09T05:09:15.000000+00:00] USER: blue hats\n[2026-01-09T05:09:16.000000+00:00] AI: ok\n[2026-01-09T05:09:17.000000+00:00] USER: green bags").toList

/-- File B of the end-to-end scenario: a loose-text log with one user/bot
pair. -/
def fileB : Str := ("User: hello\nBot: hi").toList

/-- The combined normalized session list of the scenario (both files parsed
by format detection, then normalized; `JSON.parse` fails on both contents,
see `jsonParse` conjuncts of the counterexample). -/
def c1Transcripts : List Transcript :=
  let pa := (parseTextTranscript fileA (("fileA.txt").toList)).getD []
  let pb := (parseTextTranscript fileB (("fileB.txt").toList)).getD []
  normalizeTranscripts (("generated-id").toList)
    [{ filename := ("fileA.txt").toList, transcripts := pa },
     { filename := ("fileB.txt").toList, transcripts := pb }]

/-- The combined metrics of the end-to-end scenario. -/
def c1Metrics : MetricsSnapshot := extractRuleBasedMetrics c1Transcripts

/-- A RESULTS fragment with nested products `[['a','b'],['c']]`. -/
def resultsFragAB_C : Str := ("PRODUCTS [['a','b'],['c']]").toList

/-- A RESULTS fragment with duplicate products `[['a','a'],['b']]`. -/
def resultsFragAA_B : Str := ("PRODUCTS [['a','a'],['b']]").toList

/-- The unbalanced PRODUCTS fragment of the malformed-input test. -/
def resultsFragUnbalanced : Str := ("PRODUCTS [['p1','p2']").toList

/-- The raw capture that the decoder retains for the unbalanced fragment. -/
def rawUnbalanced : Str := ("[['p1','p2']").toList

/-- A session whose single user query is the support word `help`. -/
def tHelp : Transcript :=
  { id := some (("t1").toList),
    messages := [{ role := some strUser, content := some (("help").toList) }] }

/-- A session with three casings of the same query. -/
def tThreeCasings : Transcript :=
  { id := some (("t2").toList),
    messages := [{ role := some strUser, content := some (("Find shoes").toList) },
                 { role := some strUser, content := some (("find shoes").toList) },
                 { role := some strUser, content := some (("FIND SHOES").toList) }] }

/-- A session with an alphabetic query followed by a numeric-string query
(`7` is an array-index property key). -/
def tTie : Transcript :=
  { id := some (("t3").toList),
    messages := [{ role := some strUser, content := some (("zebra").toList) },
                 { role := some strUser, content := some (("7").toList) }] }

/-- A bot message whose decoded products hold one non-empty string leaf
among number, null, boolean, object and empty-string leaves. -/
def tMixedLeaves : Transcript :=
  { id := some (("t4").toList),
    messages := [{ role := some strUser, content := some (("shoes").toList) },
                 { role := some strBot, content := some (("here").toList),
                   results := some { products := some (JVal.jarr (jarrOf
                     [JVal.jstr (("a").toList), JVal.jnum 5, JVal.jnull,
                      JVal.jbool true, JVal.jobj JObj.nil, JVal.jstr []])) } }] }

/-- A timestamped log whose USER line is followed by two separator lines
(lines that do not match the timestamp-prefixed grammar, yet are skipped,
not merged). -/
def c8SeparatorInput : Str :=
  ("[2026-01-09T05:09:11.000000+00:00] USER: part one\n==========\n==========").toList

/-- A timestamped log whose USER line is followed by two ordinary
continuation lines. -/
def c8ContinuationInput : Str :=
  ("[2026-01-09T05:09:11.000000+00:00] USER: part one\nsecond bit\nthird bit").toList

/-- A parse result whose transcript carries its role under `sender` (the
normalizer's metadata pass reads only `role`). -/
def c9Input : List ParsedResult :=
  [{ filename := ("f.txt").toList,
     transcripts := [{ id := some (("t9").toList),
                       messages := [{ sender := some (("customer").toList),
                                      content := some (("hi").toList) }] }] }]

/-- Re-run the normalizer on its own output: each normalized session is
wrapped back into a parse result named by its source file. -/
def renormalize (gid : Str) (ts : List Transcript) : List Transcript :=
  normalizeTranscripts gid
    (ts.map (fun t => { filename := t.sourceFile.getD [], transcripts := [t] }))

/-- The classified-query count of the behavioral loop: one per user message
with non-empty trimmed content. -/
def classifiedQueryCount (transcripts : List Transcript) : Nat :=
  (transcripts.map (fun t => (sessionQueriesOf t).length)).sum

/-- The lower-cased forms of a query list, first occurrence order
(the spec-side dedup key order of the claim). -/
def firstSeenKeys (qs : List Str) : List Str :=
  qs.foldl (fun acc q => setAdd acc (lowerStr q)) []

/-- Occurrences of a normalized form in a query list. -/
def countKey (qs : List Str) (k : Str) : Nat :=
  (qs.filter (fun q => lowerStr q == k)).length

/-- The first-seen literal casing of a normalized form. -/
def firstWithKey (qs : List Str) (k : Str) : Str :=
  ((qs.find? (fun q => lowerStr q == k)).getD [])

/-- The entry a normalized form `k` should carry: first-seen casing and
occurrence count. -/
def specEntry (qs : List Str) (k : Str) : QueryFreq :=
  { query := firstWithKey qs k, frequency := countKey qs k }

/-- Spec-side dedup (written from the claim's words): one entry per
case-insensitively distinct query in first-seen order, displaying the
first-seen casing, counting all occurrences. -/
def dedupFirstSeenSpec (qs : List Str) : List QueryFreq :=
  (firstSeenKeys qs).map (fun k => specEntry qs k)

/-- Results payloads appear only on bot messages. -/
def ResultsOnlyBot (msgs : List JsMessage) : Prop :=
  ∀ m ∈ msgs, m.results.isSome = true → m.role = some strBot

/-- The parser-loop invariant: every emitted message with results is a bot
message, and the open current message carries no results. -/
def TsInv (st : TsState) : Prop :=
  ResultsOnlyBot st.messages ∧ ∀ m, st.currentMessage = some m → m.results = none

/-- A timestamped log whose RESULTS line immediately follows a user message
(no intervening bot message). -/
def c2DropInput : Str :=
  ("[2026-01-09T05:09:11.000000+00:00] USER: query\n[2026-01-09T05:09:12.000000+00:00] RESULTS: STYLES: ['X']; PRODUCTS [['a']]").toList

/-- A timestamped log whose RESULTS line immediately follows a bot message. -/
def c2AttachInput : Str :=
  ("[2026-01-09T05:09:11.000000+00:00] USER: query\n[2026-01-09T05:09:12.000000+00:00] AI: reply\n[2026-01-09T05:09:13.000000+00:00] RESULTS: STYLES: ['X']; PRODUCTS [['a']]").toList

/- # Theorems

## Shared lemmas on the flattener -/

set_option maxRecDepth 100000

mutual

/-- The flattener computes the depth-first leaf list filtered to non-empty
strings (value form). -/
theorem flattenProducts_eq_filterMap : (v : JVal) →
    flattenProducts v = (dfLeaves v).filterMap leafKeep
  | JVal.jarr xs => by
      rw [show flattenProducts (JVal.jarr xs) = flattenLoop xs from rfl,
          show dfLeaves (JVal.jarr xs) = dfLeavesArr xs from rfl]
      exact flattenLoop_eq_filterMap xs
  | JVal.jstr s => by
      by_cases h : s.isEmpty <;> simp [flattenProducts, dfLeaves, leafKeep, h]
  | JVal.jnum q => by simp [flattenProducts, dfLeaves, leafKeep]
  | JVal.jbool b => by simp [flattenProducts, dfLeaves, leafKeep]
  | JVal.jnull => by simp [flattenProducts, dfLeaves, leafKeep]
  | JVal.jobj fs => by simp [flattenProducts, dfLeaves, leafKeep]

/-- The flattener computes the depth-first leaf list filtered to non-empty
strings (spine form). -/
theorem flattenLoop_eq_filterMap : (xs : JArr) →
    flattenLoop xs = (dfLeavesArr xs).filterMap leafKeep
  | JArr.nil => by simp [flattenLoop, dfLeavesArr]
  | JArr.cons v rest => by
      rw [show dfLeavesArr (JArr.cons v rest) = dfLeaves v ++ dfLeavesArr rest from rfl,
          List.filterMap_append, ← flattenProducts_eq_filterMap v,
          ← flattenLoop_eq_filterMap rest]
      cases v <;> simp [flattenLoop, flattenProducts]

end

/-- Filtering all-string, no-empty leaf lists through the flattener's filter
is the identity. -/
theorem filterMap_leafKeep_map_jstr (leaves : List Str) (h : ([] : Str) ∉ leaves) :
    (leaves.map JVal.jstr).filterMap leafKeep = leaves := by
  induction leaves with
  | nil => simp
  | cons x xs ih =>
    simp only [List.mem_cons, not_or] at h
    have hx : x.isEmpty = false := by
      cases x with
      | nil => exact absurd rfl h.1
      | cons c cs => rfl
    simp [leafKeep, hx, ih h.2]

/- ## C1 — end-to-end scenario -/

/-- C1 counterexample: for the two scenario files, both contents fail
`JSON.parse`, file A selects the timestamped grammar and file B the loose
grammar; the combined metrics report `totalSessions = 2` — not 3 as the
claim states — because the timestamped parser emits one session per file and
`CONVERSATION STARTED` markers only reset the open message. -/
theorem c1_end_to_end_counterexample :
    (jsonParse fileA).isNone = true
    ∧ (jsonParse fileB).isNone = true
    ∧ timestampPatternTest fileA = true
    ∧ timestampPatternTest fileB = false
    ∧ c1Metrics.sessionOverview.totalSessions = 2
    ∧ c1Metrics.sessionOverview.totalSessions ≠ 3 :=
  ⟨by decide, by decide, by decide, by decide, by decide, by decide⟩

/-- C1 (amended): the scenario of the claim reports `totalSessions = 2`
(one session per file), `totalQueries = 4`, `uniqueProductsRecommended = 2`
and `styleAnalysis.totalStyles = 1`. -/
theorem c1_end_to_end_amended :
    c1Metrics.sessionOverview.totalSessions = 2
    ∧ c1Metrics.queryAnalysis.totalQueries = 4
    ∧ c1Metrics.productInsights.uniqueProductsRecommended = 2
    ∧ c1Metrics.productInsights.styleAnalysis.totalStyles = 1 :=
  ⟨by decide, by decide, by decide, by decide⟩

/- ## C3 — decoder flattening -/

/-- C3: whenever the decoder's PRODUCTS expression parses, flattening the
decoded value of an all-string nest yields exactly the leaf strings in
depth-first order, preserving order and duplicates; in particular
`[['a','b'],['c']]` flattens to `['a','b','c']` and `[['a','a'],['b']]` to
`['a','a','b']` through the full decoder. -/
theorem c3_decoder_flattening :
    (∀ content v leaves, (parseResultsContent content).products = some v →
        dfLeaves v = leaves.map JVal.jstr → ([] : Str) ∉ leaves →
        flattenProducts v = leaves)
    ∧ ((parseResultsContent resultsFragAB_C).products.map flattenProducts
        = some [("a").toList, ("b").toList, ("c").toList])
    ∧ ((parseResultsContent resultsFragAA_B).products.map flattenProducts
        = some [("a").toList, ("a").toList, ("b").toList]) := by
  refine ⟨?_, by decide, by decide⟩
  intro content v leaves _ hleaves hne
  rw [flattenProducts_eq_filterMap v, hleaves, filterMap_leafKeep_map_jstr leaves hne]

/-- C3 witness: the general conjunct applied to the concrete fragment
`PRODUCTS [['a','b'],['c']]`. -/
theorem c3_decoder_flattening_witness :
    flattenProducts (JVal.jarr (jarrOf [JVal.jarr (jarrOf
        [JVal.jstr (("a").toList), JVal.jstr (("b").toList)]),
      JVal.jarr (jarrOf [JVal.jstr (("c").toList)])]))
      = [("a").toList, ("b").toList, ("c").toList] :=
  c3_decoder_flattening.1 resultsFragAB_C _
    [("a").toList, ("b").toList, ("c").toList] (by rfl) (by rfl) (by decide)

/- ## C4 — malformed-products tolerance -/

/-- The greedy capture always ends in `]`, hence is non-empty. -/
theorem lastCloseSplit_ne_nil {s x : Str} (h : lastCloseSplit s = some x) : x ≠ [] := by
  unfold lastCloseSplit at h
  rcases hr : s.reverse.dropWhile (fun c => !(c == ']')) with _ | ⟨c, cs⟩ <;>
    rw [hr] at h
  · exact absurd h (by simp)
  · cases h
    simp

/-- One products-pattern attempt never captures the empty string. -/
theorem productsTry_ne_nil {s raw : Str} (h : productsTry s = some raw) : raw ≠ [] := by
  unfold productsTry at h
  split at h
  · exact absurd h (by simp)
  · split at h
    · exact lastCloseSplit_ne_nil h
    · exact absurd h (by simp)

/-- The products capture, when found, is non-empty. -/
theorem productsFind_ne_nil : ∀ {s raw : Str}, productsFind s = some raw → raw ≠ [] := by
  intro s
  induction s with
  | nil =>
    intro raw h
    exact productsTry_ne_nil (by simpa [productsFind] using h)
  | cons c rest ih =>
    intro raw h
    rw [productsFind] at h
    rcases ht : productsTry (c :: rest) with _ | cap <;> rw [ht] at h
    · exact ih h
    · cases h
      exact productsTry_ne_nil ht

/-- C4 counterexample: on the unbalanced fragment the decoder returns an
object with no `products` key at all — not `products: []` as the claim
states — together with the raw capture under `productsRaw`. -/
theorem c4_products_absent_counterexample :
    (parseResultsContent resultsFragUnbalanced).products = none
    ∧ (parseResultsContent resultsFragUnbalanced).products ≠ some (JVal.jarr JArr.nil)
    ∧ (parseResultsContent resultsFragUnbalanced).productsRaw = some rawUnbalanced
    ∧ rawUnbalanced ≠ [] := by
  refine ⟨rfl, ?_, by decide, by decide⟩
  rw [show (parseResultsContent resultsFragUnbalanced).products = none from rfl]
  simp

/-- C4 (amended): the decoder is total by construction, and whenever the
PRODUCTS capture exists but fails to parse as JSON after quote
normalization, the result carries no `products` key (zero parsed products)
and retains the non-empty raw capture under `productsRaw`. -/
theorem c4_malformed_products_amended :
    ∀ content raw, productsFind content = some raw →
      jsonParse (normalizeQuotes raw) = none →
      (parseResultsContent content).products = none
      ∧ (parseResultsContent content).productsRaw = some raw
      ∧ raw ≠ [] := by
  intro content raw hfind hparse
  refine ⟨?_, ?_, productsFind_ne_nil hfind⟩ <;>
    simp [parseResultsContent, hfind, hparse]

/-- C4 witness: the amended theorem applied to the unbalanced fragment. -/
theorem c4_malformed_products_witness :
    (parseResultsContent resultsFragUnbalanced).products = none
    ∧ (parseResultsContent resultsFragUnbalanced).productsRaw = some rawUnbalanced
    ∧ rawUnbalanced ≠ [] :=
  c4_malformed_products_amended resultsFragUnbalanced rawUnbalanced (by decide) (by rfl)

/- ## C6 — completeness under empty input -/

/-- C6: the empty session list maps to `getEmptyMetrics`, which is missing
several fields the non-empty snapshot carries (`allUniqueQueries`,
`uniqueQueryCount`, `totalUserMessages`, `totalBotMessages`,
`dailyDistribution`, `dataLimitations`, `allProductIds`,
`totalStyleMentions`), so the claim's "every documented field present" fails
— and the caller `runAnalysis` dereferences `allUniqueQueries.slice`. -/
theorem c6_empty_snapshot_missing_fields :
    extractRuleBasedMetrics [] = getEmptyMetrics
    ∧ getEmptyMetrics.queryAnalysis.allUniqueQueries = none
    ∧ getEmptyMetrics.queryAnalysis.uniqueQueryCount = none
    ∧ getEmptyMetrics.turnAnalysis.totalUserMessages = none
    ∧ getEmptyMetrics.turnAnalysis.totalBotMessages = none
    ∧ getEmptyMetrics.timePatterns.dailyDistribution = none
    ∧ getEmptyMetrics.dataQualityNotes.dataLimitations = none
    ∧ getEmptyMetrics.productInsights.allProductIds = none
    ∧ getEmptyMetrics.productInsights.styleAnalysis.totalStyleMentions = none
    ∧ (∀ ts : List Transcript, ts ≠ [] →
        (extractRuleBasedMetrics ts).queryAnalysis.allUniqueQueries.isSome = true
        ∧ (extractRuleBasedMetrics ts).turnAnalysis.totalUserMessages.isSome = true
        ∧ (extractRuleBasedMetrics ts).dataQualityNotes.dataLimitations.isSome = true) := by
  refine ⟨rfl, rfl, rfl, rfl, rfl, rfl, rfl, rfl, rfl, ?_⟩
  intro ts hts
  have hne : ts.isEmpty = false := by
    cases ts with
    | nil => exact absurd rfl hts
    | cons a l => rfl
  refine ⟨?_, ?_, ?_⟩ <;>
    simp [extractRuleBasedMetrics, hne, extractQueryAnalysis, extractTurnAnalysis]

/- ## C10 — flattening keeps only non-empty string leaves -/

/-- C10: the flattening returns exactly the depth-first leaves that are
non-empty strings (numbers, null, booleans, objects and empty strings are
dropped); concretely, a payload `['a', 5, null, true, {}, '']` contributes a
single product to the engine's totals and an average of 1 product per
results event. -/
theorem c10_flatten_filter :
    (∀ v : JVal, flattenProducts v = (dfLeaves v).filterMap leafKeep)
    ∧ (extractProductInsights [tMixedLeaves]).totalProductsRecommended = 1
    ∧ (extractProductInsights [tMixedLeaves]).uniqueProductsRecommended = 1
    ∧ (extractBotResponseAnalysis [tMixedLeaves]).avgProductsReturned = 1 := by
  refine ⟨flattenProducts_eq_filterMap, by decide, by decide, ?_⟩
  have hst : List.foldl brStepTranscript {} [tMixedLeaves]
      = { sessionsWithResults := 1, sessionsWithoutResults := 0,
          totalProductsInResults := 1, resultsCount := 1, clarifying := [] } := rfl
  simp only [extractBotResponseAnalysis, hst]
  norm_num [jsToFixed, round_eq]

/- ## C5 — intent buckets -/

/-- The complexity chain leaves every intent counter unchanged. -/
theorem ubComplexityStep_intents (st : UBState) (q : Str) :
    (ubComplexityStep st q).specificItem = st.specificItem
    ∧ (ubComplexityStep st q).categoryBrowse = st.categoryBrowse
    ∧ (ubComplexityStep st q).productSearch = st.productSearch
    ∧ (ubComplexityStep st q).supportRequest = st.supportRequest
    ∧ (ubComplexityStep st q).locationQuery = st.locationQuery := by
  unfold ubComplexityStep
  split_ifs <;> exact ⟨rfl, rfl, rfl, rfl, rfl⟩

/-- The support/location chain leaves the other-chain counters unchanged and
adds at most one to its own two. -/
theorem ubSupportLocationStep_intents (st : UBState) (q : Str) :
    (ubSupportLocationStep st q).specificItem = st.specificItem
    ∧ (ubSupportLocationStep st q).categoryBrowse = st.categoryBrowse
    ∧ (ubSupportLocationStep st q).productSearch = st.productSearch
    ∧ (ubSupportLocationStep st q).supportRequest + (ubSupportLocationStep st q).locationQuery
      ≤ st.supportRequest + st.locationQuery + 1 := by
  unfold ubSupportLocationStep
  split_ifs <;> refine ⟨rfl, rfl, rfl, ?_⟩ <;> simp_arith

/-- The price flag touches no intent-chain counter. -/
theorem ubPriceStep_intents (st : UBState) (q : Str) :
    (ubPriceStep st q).specificItem = st.specificItem
    ∧ (ubPriceStep st q).categoryBrowse = st.categoryBrowse
    ∧ (ubPriceStep st q).productSearch = st.productSearch
    ∧ (ubPriceStep st q).supportRequest = st.supportRequest
    ∧ (ubPriceStep st q).locationQuery = st.locationQuery := by
  unfold ubPriceStep
  split_ifs <;> exact ⟨rfl, rfl, rfl, rfl, rfl⟩

/-- The item chain adds exactly one to its three buckets and leaves the
support/location counters unchanged. -/
theorem ubItemChainStep_intents (st : UBState) (q : Str) :
    (ubItemChainStep st q).specificItem + (ubItemChainStep st q).categoryBrowse
      + (ubItemChainStep st q).productSearch
      = st.specificItem + st.categoryBrowse + st.productSearch + 1
    ∧ (ubItemChainStep st q).supportRequest = st.supportRequest
    ∧ (ubItemChainStep st q).locationQuery = st.locationQuery := by
  unfold ubItemChainStep
  split_ifs <;> refine ⟨?_, rfl, rfl⟩ <;> simp_arith

/-- One classified query adds exactly one to the second intent chain's three
buckets. -/
theorem ubClassify_triple (st : UBState) (q : Str) :
    (ubClassify st q).specificItem + (ubClassify st q).categoryBrowse
      + (ubClassify st q).productSearch
    = st.specificItem + st.categoryBrowse + st.productSearch + 1 := by
  unfold ubClassify
  have h1 := ubComplexityStep_intents st q
  have h2 := ubSupportLocationStep_intents (ubComplexityStep st q) q
  have h3 := ubPriceStep_intents (ubSupportLocationStep (ubComplexityStep st q) q) q
  have h4 := ubItemChainStep_intents
    (ubPriceStep (ubSupportLocationStep (ubComplexityStep st q) q) q) q
  omega

/-- One classified query adds at most one to the first intent chain's two
buckets. -/
theorem ubClassify_pair (st : UBState) (q : Str) :
    (ubClassify st q).supportRequest + (ubClassify st q).locationQuery
    ≤ st.supportRequest + st.locationQuery + 1 := by
  unfold ubClassify
  have h1 := ubComplexityStep_intents st q
  have h2 := ubSupportLocationStep_intents (ubComplexityStep st q) q
  have h3 := ubPriceStep_intents (ubSupportLocationStep (ubComplexityStep st q) q) q
  have h4 := ubItemChainStep_intents
    (ubPriceStep (ubSupportLocationStep (ubComplexityStep st q) q) q) q
  omega

/-- Folding the classifier over a query list adds the list's length to the
three-bucket sum. -/
theorem foldl_ubClassify_triple (qs : List Str) (st : UBState) :
    (qs.foldl ubClassify st).specificItem + (qs.foldl ubClassify st).categoryBrowse
      + (qs.foldl ubClassify st).productSearch
    = st.specificItem + st.categoryBrowse + st.productSearch + qs.length := by
  induction qs generalizing st with
  | nil => simp
  | cons q rest ih =>
    simp only [List.foldl_cons, ih (ubClassify st q), ubClassify_triple, List.length_cons]
    omega

/-- Folding the classifier over a query list adds at most the list's length
to the two-bucket sum. -/
theorem foldl_ubClassify_pair (qs : List Str) (st : UBState) :
    (qs.foldl ubClassify st).supportRequest + (qs.foldl ubClassify st).locationQuery
    ≤ st.supportRequest + st.locationQuery + qs.length := by
  induction qs generalizing st with
  | nil => simp
  | cons q rest ih =>
    have h1 := ubClassify_pair st q
    have h2 := ih (ubClassify st q)
    simp only [List.foldl_cons, List.length_cons]
    omega

/-- The repeated-query bookkeeping leaves the intent counters unchanged. -/
theorem ubStepTranscript_triple (st : UBState) (t : Transcript) :
    (ubStepTranscript st t).specificItem + (ubStepTranscript st t).categoryBrowse
      + (ubStepTranscript st t).productSearch
    = st.specificItem + st.categoryBrowse + st.productSearch
      + (sessionQueriesOf t).length := by
  unfold ubStepTranscript
  dsimp only
  split_ifs <;> simp [foldl_ubClassify_triple]

/-- Per-session bound for the two-bucket sum. -/
theorem ubStepTranscript_pair (st : UBState) (t : Transcript) :
    (ubStepTranscript st t).supportRequest + (ubStepTranscript st t).locationQuery
    ≤ st.supportRequest + st.locationQuery + (sessionQueriesOf t).length := by
  unfold ubStepTranscript
  dsimp only
  have h := foldl_ubClassify_pair (sessionQueriesOf t) st
  split_ifs <;> simpa using h

/-- Fold form of the two C5 counting facts. -/
theorem foldl_ubStep_counts (ts : List Transcript) (st : UBState) :
    ((ts.foldl ubStepTranscript st).specificItem
        + (ts.foldl ubStepTranscript st).categoryBrowse
        + (ts.foldl ubStepTranscript st).productSearch
      = st.specificItem + st.categoryBrowse + st.productSearch
        + (ts.map (fun t => (sessionQueriesOf t).length)).sum)
    ∧ ((ts.foldl ubStepTranscript st).supportRequest
        + (ts.foldl ubStepTranscript st).locationQuery
      ≤ st.supportRequest + st.locationQuery
        + (ts.map (fun t => (sessionQueriesOf t).length)).sum) := by
  induction ts generalizing st with
  | nil => simp
  | cons t rest ih =>
    have h3 := ubStepTranscript_triple st t
    have h2 := ubStepTranscript_pair st t
    have ihh := ih (ubStepTranscript st t)
    simp only [List.foldl_cons, List.map_cons, List.sum_cons]
    constructor
    · rw [ihh.1]
      omega
    · have := ihh.2
      omega

/-- C5 counterexample: the single query `help` increments both
`supportRequest` (first chain) and `productSearch` (second chain), so the
five exclusive buckets sum to 2 for 1 classified query. -/
theorem c5_intent_buckets_counterexample :
    (extractUserBehavior [tHelp]).intentCategories.supportRequest = 1
    ∧ (extractUserBehavior [tHelp]).intentCategories.productSearch = 1
    ∧ (extractUserBehavior [tHelp]).intentCategories.supportRequest
      + (extractUserBehavior [tHelp]).intentCategories.locationQuery
      + (extractUserBehavior [tHelp]).intentCategories.specificItem
      + (extractUserBehavior [tHelp]).intentCategories.categoryBrowse
      + (extractUserBehavior [tHelp]).intentCategories.productSearch = 2
    ∧ classifiedQueryCount [tHelp] = 1
    ∧ (2 : Nat) ≠ 1 :=
  ⟨by decide, by decide, by decide, by decide, by decide⟩

/-- C5 (amended): the classifier runs two independent chains, so the five
buckets are not exclusive; instead every classified query lands in exactly
one of `{specificItem, categoryBrowse, productSearch}` (their sum equals the
classified-query count) and in at most one of
`{supportRequest, locationQuery}` (their sum is at most that count). -/
theorem c5_intent_buckets_amended (ts : List Transcript) :
    (extractUserBehavior ts).intentCategories.specificItem
      + (extractUserBehavior ts).intentCategories.categoryBrowse
      + (extractUserBehavior ts).intentCategories.productSearch
      = classifiedQueryCount ts
    ∧ (extractUserBehavior ts).intentCategories.supportRequest
      + (extractUserBehavior ts).intentCategories.locationQuery
      ≤ classifiedQueryCount ts := by
  unfold extractUserBehavior classifiedQueryCount
  rcases ts with _ | ⟨t, rest⟩
  · simp [getEmptyUserBehavior]
  · have h := foldl_ubStep_counts (t :: rest) {}
    simp only [List.isEmpty_cons, Bool.false_eq_true, if_false]
    constructor
    · simpa using h.1
    · simpa using h.2

/- ## C2 — results attachment -/

/-- A matched line starts with an opening bracket. -/
theorem matchLinePattern_head {t : Str} {r : Str × LineRole × Str}
    (h : matchLinePattern t = some r) : ∃ rest, t = '[' :: rest := by
  cases t with
  | nil => simp [matchLinePattern, expectChar] at h
  | cons c cs =>
    by_cases hc : c = '['
    · exact ⟨cs, by rw [hc]⟩
    · have hb : (c == '[') = false := by simpa using hc
      simp [matchLinePattern, expectChar, hb] at h

/-- A matched line is neither blank nor a separator. -/
theorem matchLinePattern_not_skipped {t : Str} {r : Str × LineRole × Str}
    (h : matchLinePattern t = some r) :
    (isSeparatorLine t || t.isEmpty) = false := by
  obtain ⟨rest, hrest⟩ := matchLinePattern_head h
  subst hrest
  simp [isSeparatorLine]

/-- Updating the last element rewrites exactly that element. -/
theorem updateLast_eq_dropLast {α : Type} (f : α → α) :
    ∀ (l : List α) (x : α), l.getLast? = some x → updateLast f l = l.dropLast ++ [f x] := by
  intro l
  induction l with
  | nil => intro x h; simp at h
  | cons a rest ih =>
    intro x h
    cases rest with
    | nil =>
      have : a = x := by simpa using h
      subst this
      simp [updateLast]
    | cons b rest2 =>
      rw [List.getLast?_cons_cons] at h
      have hr := ih x h
      simp only [updateLast, hr]
      rfl

/-- Pushing the open current message preserves the invariant's message part. -/
theorem pushCur_ResultsOnlyBot {st : TsState} (h : TsInv st) :
    ResultsOnlyBot (pushCur st) := by
  unfold pushCur
  rcases hcur : st.currentMessage with _ | m
  · exact h.1
  · intro x hx hres
    rcases List.mem_append.mp hx with hx | hx
    · exact h.1 x hx hres
    · have hxm : x = m := List.mem_singleton.mp hx
      subst hxm
      rw [h.2 x hcur] at hres
      cases hres

/-- Attaching results preserves the bot-only invariant. -/
theorem attachIfBot_ResultsOnlyBot {msgs : List JsMessage} (content : Str)
    (h : ResultsOnlyBot msgs) : ResultsOnlyBot (attachIfBot msgs content) := by
  unfold attachIfBot
  rcases hl : msgs.getLast? with _ | lm
  · exact h
  · dsimp only
    by_cases hb : (lm.role == some strBot) = true
    · rw [if_pos hb, updateLast_eq_dropLast _ msgs lm hl]
      intro x hx hres
      rcases List.mem_append.mp hx with hx | hx
      · exact h x (List.dropLast_subset _ hx) hres
      · have hxm : x = { lm with results := some (parseResultsContent content) } :=
          List.mem_singleton.mp hx
        subst hxm
        exact eq_of_beq hb
    · rw [if_neg hb]
      exact h

/-- One parser step preserves the invariant. -/
theorem tsStep_inv {st : TsState} (line : Str) (h : TsInv st) : TsInv (tsStep st line) := by
  unfold tsStep
  split
  · exact h
  · split
    · split
      · exact ⟨pushCur_ResultsOnlyBot h, by intro m hm; cases hm⟩
      · refine ⟨attachIfBot_ResultsOnlyBot _ (pushCur_ResultsOnlyBot h), ?_⟩
        intro m hm
        cases hm
      · refine ⟨pushCur_ResultsOnlyBot h, ?_⟩
        intro m hm
        cases hm
        rfl
      · refine ⟨pushCur_ResultsOnlyBot h, ?_⟩
        intro m hm
        cases hm
        rfl
    · split
      · split
        · exact h
        · rename_i m hcur _
          refine ⟨h.1, ?_⟩
          intro m' hm'
          cases hm'
          exact h.2 m hcur
      · exact h

/-- The invariant holds across the whole line fold. -/
theorem foldl_tsStep_inv (lines : List Str) (st : TsState) (h : TsInv st) :
    TsInv (lines.foldl tsStep st) := by
  induction lines generalizing st with
  | nil => exact h
  | cons l rest ih => exact ih _ (tsStep_inv l h)

/-- Every session the timestamped parser outputs satisfies the bot-only
results invariant. -/
theorem parseTimestamped_resultsOnlyBot {content filename : Str} {out : List Transcript}
    (h : parseTimestampedTranscript content filename = some out) :
    ∀ t ∈ out, ResultsOnlyBot t.messages := by
  have hinv : TsInv ((splitOnChar '\n' content).foldl tsStep {}) := by
    refine foldl_tsStep_inv _ _ ⟨?_, ?_⟩
    · intro m hm
      cases hm
    · intro m hm
      cases hm
  unfold parseTimestampedTranscript at h
  dsimp only at h
  split at h
  · cases h
  · cases h
  · cases h
    intro t ht
    have : t = { id := _, messages := pushCur ((splitOnChar '\n' content).foldl tsStep {}),
                 metadata := _ } := List.mem_singleton.mp ht
    subst this
    exact pushCur_ResultsOnlyBot hinv

/-- C2: results only ever attach to bot messages — globally, every parsed
session's messages carry results only on bot messages; step-wise, a RESULTS
line whose immediately preceding emitted message is a bot message attaches
the decoded payload to exactly that message, and one whose preceding emitted
message is not a bot message (or absent) leaves every message unchanged;
plus the two concrete scenarios of the claim. -/
theorem c2_results_attachment :
    (∀ content filename out, parseTimestampedTranscript content filename = some out →
        ∀ t ∈ out, ∀ m ∈ t.messages, m.results.isSome = true → m.role = some strBot)
    ∧ (∀ st line ts content lm,
        matchLinePattern (jsTrim line) = some (ts, LineRole.results, content) →
        (pushCur st).getLast? = some lm → lm.role = some strBot →
        (tsStep st line).messages
          = (pushCur st).dropLast ++ [{ lm with results := some (parseResultsContent content) }]
          ∧ (tsStep st line).currentMessage = none)
    ∧ (∀ st line ts content,
        matchLinePattern (jsTrim line) = some (ts, LineRole.results, content) →
        (∀ lm, (pushCur st).getLast? = some lm → ¬ lm.role = some strBot) →
        (tsStep st line).messages = pushCur st ∧ (tsStep st line).currentMessage = none)
    ∧ (((parseTimestampedTranscript c2DropInput (("d.txt").toList)).getD []).map
        (fun t => t.messages.map (fun m => (m.results.isSome, m.role))))
        = [[(false, some strUser)]]
    ∧ (((parseTimestampedTranscript c2AttachInput (("a.txt").toList)).getD []).map
        (fun t => t.messages.map (fun m => (m.results.isSome, m.role))))
        = [[(false, some strUser), (true, some strBot)]] := by
  refine ⟨?_, ?_, ?_, by decide, by decide⟩
  · intro content filename out h t ht
    exact parseTimestamped_resultsOnlyBot h t ht
  · intro st line ts content lm hm hl hb
    unfold tsStep
    rw [matchLinePattern_not_skipped hm]
    simp only [Bool.false_eq_true, if_false, hm]
    constructor
    · show attachIfBot (pushCur st) content = _
      unfold attachIfBot
      rw [hl]
      dsimp only
      rw [if_pos (by simp [hb]), updateLast_eq_dropLast _ _ lm hl]
    · trivial
  · intro st line ts content hm hnb
    unfold tsStep
    rw [matchLinePattern_not_skipped hm]
    simp only [Bool.false_eq_true, if_false, hm]
    constructor
    · show attachIfBot (pushCur st) content = _
      unfold attachIfBot
      rcases hl : (pushCur st).getLast? with _ | lm
      · rfl
      · dsimp only
        rw [if_neg (by simpa using hnb lm hl)]
    · trivial

/-- C2 witness: the step lemma applied to a concrete state whose last
emitted message is a bot message. -/
theorem c2_results_attachment_witness :
    (tsStep { messages := [{ role := some strBot, content := some (("reply").toList) }] }
        (("[2026-01-09T05:09:13.000000+00:00] RESULTS: PRODUCTS [['a']]").toList)).messages
      = [{ role := some strBot, content := some (("reply").toList),
           results := some (parseResultsContent ((" PRODUCTS [['a']]").toList)) }] := by
  have h := (c2_results_attachment.2.1
    { messages := [{ role := some strBot, content := some (("reply").toList) }] }
    (("[2026-01-09T05:09:13.000000+00:00] RESULTS: PRODUCTS [['a']]").toList)
    (("2026-01-09T05:09:13.000000+00:00").toList)
    (("PRODUCTS [['a']]").toList)
    { role := some strBot, content := some (("reply").toList) }
    (by rfl) (by rfl) (by rfl)).1
  simpa using h

/- ## C8 — continuation merging -/

/-- A USER line pushes the open message and opens a fresh user message. -/
theorem tsStep_user_line (st : TsState) (line ts c : Str)
    (hm : matchLinePattern (jsTrim line) = some (ts, LineRole.user, c)) :
    tsStep st line =
      { messages := pushCur st,
        currentMessage := some { role := some strUser, content := some (jsTrim c),
                                 timestamp := some ts },
        earliest := updEarliest st (jsDateParse ts),
        latest := updLatest st (jsDateParse ts) } := by
  unfold tsStep
  rw [matchLinePattern_not_skipped hm]
  simp only [Bool.false_eq_true, if_false, hm]

/-- A non-matching, non-blank, non-separator line extends the open message. -/
theorem tsStep_continuation (st : TsState) (m : JsMessage) (line : Str)
    (hm : matchLinePattern (jsTrim line) = none)
    (hns : isSeparatorLine (jsTrim line) = false)
    (hne : (jsTrim line).isEmpty = false)
    (hcur : st.currentMessage = some m) :
    tsStep st line =
      { st with currentMessage := some ({ m with content := some (m.content.getD [] ++ ' ' :: jsTrim line) }) } := by
  unfold tsStep
  have hskip : (isSeparatorLine (jsTrim line) || (jsTrim line).isEmpty) = false := by
    rw [hns, hne]
    rfl
  rw [hskip]
  simp only [Bool.false_eq_true, if_false, hm, hcur, hne]

/-- A non-matching line with no open message leaves the initial state
unchanged (whether skipped or unattributable). -/
theorem tsStep_init_nomatch (line : Str)
    (hm : matchLinePattern (jsTrim line) = none) :
    tsStep ({} : TsState) line = ({} : TsState) := by
  unfold tsStep
  split
  · rfl
  · simp only [hm]

/-- C8 counterexample: a USER line followed by two separator lines — lines
that do not match the timestamp-prefixed grammar — yields one user message
holding only the USER line's own text: the separators are skipped, not
space-joined as the claim states. -/
theorem c8_continuation_counterexample :
    (((parseTimestampedTranscript c8SeparatorInput (("s.txt").toList)).getD []).map
        (fun t => t.messages.map (fun m => (m.role, m.content))))
      = [[(some strUser, some (("part one").toList))]]
    ∧ ("part one").toList ≠ ("part one ========== ==========").toList :=
  ⟨by decide, by decide⟩

/-- C8 (amended): for a timestamped log of one USER line followed by two
non-blank, non-separator lines that do not match the grammar, and whose
USER-line timestamp is a valid date (otherwise the parser throws), the
session holds exactly one user message whose content space-joins the three
trimmed fragments; and a log of a single non-matching line yields a session
with no messages (the line is silently dropped). -/
theorem c8_continuation_amended :
    (∀ content filename tsLine l1 l2 ts c,
      splitOnChar '\n' content = [tsLine, l1, l2] →
      matchLinePattern (jsTrim tsLine) = some (ts, LineRole.user, c) →
      (jsDateParse ts).isSome = true →
      matchLinePattern (jsTrim l1) = none →
      isSeparatorLine (jsTrim l1) = false → (jsTrim l1).isEmpty = false →
      matchLinePattern (jsTrim l2) = none →
      isSeparatorLine (jsTrim l2) = false → (jsTrim l2).isEmpty = false →
      ∃ t, parseTimestampedTranscript content filename = some [t]
        ∧ t.messages = [{ role := some strUser,
                          content := some (jsTrim c ++ ' ' :: (jsTrim l1 ++ ' ' :: jsTrim l2)),
                          timestamp := some ts }])
    ∧ (∀ content filename l,
      splitOnChar '\n' content = [l] →
      matchLinePattern (jsTrim l) = none →
      ∃ t, parseTimestampedTranscript content filename = some [t] ∧ t.messages = []) := by
  constructor
  · intro content filename tsLine l1 l2 ts c hsplit hm hval h1 h1ns h1ne h2 h2ns h2ne
    rcases Option.isSome_iff_exists.mp hval with ⟨v, hv⟩
    unfold parseTimestampedTranscript
    rw [hsplit]
    simp only [List.foldl_cons, List.foldl_nil]
    rw [tsStep_user_line ({} : TsState) tsLine ts c hm]
    rw [tsStep_continuation _ _ l1 h1 h1ns h1ne rfl]
    rw [tsStep_continuation _ _ l2 h2 h2ns h2ne rfl]
    simp only [updEarliest, updLatest, pushCur, Option.isNone_none, Bool.true_or, if_true,
               Option.getD_none]
    rw [hv]
    refine ⟨_, rfl, ?_⟩
    simp [List.append_assoc]
  · intro content filename l hsplit hm
    unfold parseTimestampedTranscript
    rw [hsplit]
    simp only [List.foldl_cons, List.foldl_nil]
    rw [tsStep_init_nomatch l hm]
    exact ⟨_, rfl, rfl⟩

/-- C8 witness: the amended theorem applied to the concrete three-line log
with two continuation lines. -/
theorem c8_continuation_witness :
    ∃ t, parseTimestampedTranscript c8ContinuationInput (("c.txt").toList) = some [t]
      ∧ t.messages = [{ role := some strUser,
                        content := some ((jsTrim (("part one").toList))
                          ++ ' ' :: ((jsTrim (("second bit").toList))
                            ++ ' ' :: (jsTrim (("third bit").toList)))),
                        timestamp := some (("2026-01-09T05:09:11.000000+00:00").toList) }] :=
  c8_continuation_amended.1 c8ContinuationInput (("c.txt").toList)
    (("[2026-01-09T05:09:11.000000+00:00] USER: part one").toList)
    (("second bit").toList) (("third bit").toList)
    (("2026-01-09T05:09:11.000000+00:00").toList) (("part one").toList)
    (by decide) (by rfl) (by decide) (by rfl) (by decide) (by decide)
    (by rfl) (by decide) (by decide)

/- ## C9 — normalization idempotence -/

/-- Truthiness of a non-empty literal option. -/
theorem truthyS_cons (c : Char) (l : Str) : truthyS (some (c :: l)) = true := rfl

/-- A truthy first operand wins the or-chain. -/
theorem jsOrS_truthy (a b : Option Str) (h : truthyS a = true) : jsOrS a b = a := by
  unfold jsOrS
  rw [h]
  simp

/-- The or-chain absorbs its own fallback. -/
theorem jsOrS_absorb (a b : Option Str) : jsOrS (jsOrS a b) b = jsOrS a b := by
  unfold jsOrS
  by_cases ha : truthyS a = true
  · rw [if_pos ha, if_pos ha]
  · rw [if_neg ha]
    split <;> rfl

/-- The normalizer's role output is one of the three canonical strings. -/
theorem normalizeRole_cases (r : Str) :
    normalizeRole r = strUser ∨ normalizeRole r = strBot ∨ normalizeRole r = strUnknown := by
  unfold normalizeRole
  split_ifs <;> simp

/-- Role normalization is idempotent. -/
theorem normalizeRole_idem (r : Str) :
    normalizeRole (normalizeRole r) = normalizeRole r := by
  rcases normalizeRole_cases r with h | h | h <;> rw [h] <;> decide

/-- Truthiness of a canonical role. -/
theorem truthyS_normalizeRole (r : Str) :
    truthyS (some (normalizeRole r)) = true := by
  rcases normalizeRole_cases r with h | h | h <;> rw [h] <;> rfl

/-- The raw-role chain of a normalized message gives the canonical role. -/
theorem rawRoleOf_norm (i : Nat) (m : JsMessage) :
    rawRoleOf (normMsgAt i m) = normalizeRole (rawRoleOf m) := by
  show (if truthyS (some (normalizeRole (rawRoleOf m))) = true then _ else _) = _
  rw [truthyS_normalizeRole]
  rfl

/-- The raw-content chain of a normalized message gives the same content. -/
theorem rawContentOf_norm (i : Nat) (m : JsMessage) :
    rawContentOf (normMsgAt i m) = rawContentOf m := by
  show (if truthyS (some (rawContentOf m)) = true then (some (rawContentOf m)).getD [] else _) = _
  cases hc : rawContentOf m with
  | nil => rfl
  | cons c l => rfl

/-- The `timestamp || null` chain is idempotent. -/
theorem tsChain_idem (a : Option Str) :
    (if truthyS (if truthyS a = true then a else none) = true
     then (if truthyS a = true then a else none) else none)
      = (if truthyS a = true then a else none) := by
  by_cases h : truthyS a = true
  · simp [h]
  · rw [if_neg h]
    rfl

/-- One message normalization is idempotent. -/
theorem normMsgAt_idem (i : Nat) (m : JsMessage) :
    normMsgAt i (normMsgAt i m) = normMsgAt i m := by
  have h1 : normMsgAt i (normMsgAt i m)
      = { id := jsOrS (jsOrS m.id (some (("msg-").toList ++ natToDigits i)))
                      (some (("msg-").toList ++ natToDigits i)),
          role := some (normalizeRole (rawRoleOf (normMsgAt i m))),
          content := some (rawContentOf (normMsgAt i m)),
          timestamp := if truthyS (if truthyS m.timestamp = true then m.timestamp else none) = true
                       then (if truthyS m.timestamp = true then m.timestamp else none) else none,
          results := m.results } := rfl
  rw [h1, jsOrS_absorb, rawRoleOf_norm, normalizeRole_idem, rawContentOf_norm, tsChain_idem]
  rfl

/-- Message-list normalization is idempotent. -/
theorem normalizeMessagesFrom_idem (i : Nat) (ms : List JsMessage) :
    normalizeMessagesFrom i (normalizeMessagesFrom i ms) = normalizeMessagesFrom i ms := by
  induction ms generalizing i with
  | nil => rfl
  | cons m rest ih =>
    simp only [normalizeMessagesFrom, normMsgAt_idem, ih]

/-- Model-level `normalizeMessages` idempotence. -/
theorem normalizeMessages_idem (ms : List JsMessage) :
    normalizeMessages (normalizeMessages ms) = normalizeMessages ms :=
  normalizeMessagesFrom_idem 0 ms

/-- Fold characterization of the normalizer. -/
theorem normalizeTranscripts_eq (gid : Str) (rs : List ParsedResult) :
    normalizeTranscripts gid rs
      = (rs.filter (fun r => !truthyS r.error)).flatMap
          (fun r => r.transcripts.map (normalizeOneTranscript gid r.filename)) := by
  have aux : ∀ (l : List ParsedResult) (acc : List Transcript),
      l.foldl (fun acc r =>
        if truthyS r.error then acc
        else acc ++ r.transcripts.map (normalizeOneTranscript gid r.filename)) acc
      = acc ++ (l.filter (fun r => !truthyS r.error)).flatMap
          (fun r => r.transcripts.map (normalizeOneTranscript gid r.filename)) := by
    intro l
    induction l with
    | nil => intro acc; simp
    | cons r rest ih =>
      intro acc
      by_cases h : truthyS r.error = true <;>
        simp [List.foldl_cons, h, ih, List.filter_cons]
  exact (aux rs []).trans (by simp)

/-- The renormalization wrapper is a per-session map. -/
theorem renormalize_eq_map (gid : Str) (ts : List Transcript) :
    renormalize gid ts
      = ts.map (fun t => normalizeOneTranscript gid (t.sourceFile.getD []) t) := by
  unfold renormalize
  rw [normalizeTranscripts_eq]
  induction ts with
  | nil => rfl
  | cons t rest ih =>
    simpa [List.filter_cons, truthyS] using ih

/-- Every normalizer output is a `normalizeOneTranscript` image carrying its
wrapping filename in `sourceFile`. -/
theorem mem_normalizeTranscripts {gid : Str} {y : Transcript} {rs : List ParsedResult}
    (h : y ∈ normalizeTranscripts gid rs) :
    ∃ fn t, y = normalizeOneTranscript gid fn t := by
  rw [normalizeTranscripts_eq] at h
  rcases List.mem_flatMap.mp h with ⟨r, _, hy⟩
  rcases List.mem_map.mp hy with ⟨t, _, rfl⟩
  exact ⟨r.filename, t, rfl⟩

/-- The normalizer records the wrapping filename in `sourceFile`. -/
theorem normalizeOneTranscript_sourceFile (gid fn : Str) (t : Transcript) :
    (normalizeOneTranscript gid fn t).sourceFile = some fn := rfl

/-- From the second application on, re-normalizing one session is fixed. -/
theorem normalizeOne_fix (gid fn : Str) (t : Transcript) :
    normalizeOneTranscript gid fn
        (normalizeOneTranscript gid fn (normalizeOneTranscript gid fn t))
      = normalizeOneTranscript gid fn (normalizeOneTranscript gid fn t) := by
  unfold normalizeOneTranscript
  simp only [normalizeMessages_idem, jsOrS_absorb]

/-- C9 (amended): a single normalization pass is not idempotent in general
(the metadata pass reads only canonical fields of the raw messages), but
renormalizing twice equals renormalizing once on any normalizer output. -/
theorem c9_renormalize_amended (gid : Str) (rs : List ParsedResult) :
    renormalize gid (renormalize gid (normalizeTranscripts gid rs))
      = renormalize gid (normalizeTranscripts gid rs) := by
  rw [renormalize_eq_map, renormalize_eq_map, List.map_map]
  refine List.map_congr_left ?_
  intro y hy
  rcases mem_normalizeTranscripts hy with ⟨fn, t, rfl⟩
  simp only [normalizeOneTranscript_sourceFile, Option.getD_some]
  exact normalizeOne_fix gid fn t

/-- C9 counterexample: a message carrying its role in `sender` normalizes to
a `user` message, but the first pass records `userTurns = 0` (computed from
the raw `role` fields); renormalizing recomputes `userTurns = 1`, so one
normalization pass is not idempotent. -/
theorem c9_not_idempotent_counterexample :
    ((normalizeTranscripts (("gen").toList) c9Input).map
        (fun t => t.metadata.userTurns)) = [some 0]
    ∧ ((renormalize (("gen").toList) (normalizeTranscripts (("gen").toList) c9Input)).map
        (fun t => t.metadata.userTurns)) = [some 1]
    ∧ renormalize (("gen").toList) (normalizeTranscripts (("gen").toList) c9Input)
      ≠ normalizeTranscripts (("gen").toList) c9Input := by
  refine ⟨by decide, by decide, ?_⟩
  intro heq
  have h1 : ((normalizeTranscripts (("gen").toList) c9Input).map
      (fun t => t.metadata.userTurns)) = [some 0] := by decide
  have h2 : ((renormalize (("gen").toList) (normalizeTranscripts (("gen").toList) c9Input)).map
      (fun t => t.metadata.userTurns)) = [some 1] := by decide
  rw [heq, h1] at h2
  cases h2

/- ### C7: query dedup, frequency counting and ordering -/

/-- Stable descending insert permutes: it only moves the new head inward. -/
theorem insertDescBy_perm {α : Type} (key : α → Nat) (x : α) (l : List α) :
    List.Perm (insertDescBy key x l) (x :: l) := by
  induction l with
  | nil => exact List.Perm.refl _
  | cons y ys ih =>
    simp only [insertDescBy]
    split
    · exact (List.Perm.cons y ih).trans (List.Perm.swap x y ys)
    · exact List.Perm.refl _

/-- Folding descending inserts over a list permutes it onto the accumulator. -/
theorem foldl_insertDescBy_perm {α : Type} (key : α → Nat) (l : List α) :
    ∀ acc : List α,
      List.Perm (l.foldl (fun acc x => insertDescBy key x acc) acc) (acc ++ l) := by
  induction l with
  | nil => intro acc; simp
  | cons x xs ih =>
    intro acc
    refine (ih (insertDescBy key x acc)).trans ?_
    refine ((insertDescBy_perm key x acc).append_right xs).trans ?_
    exact List.perm_middle.symm

/-- The descending sort is a permutation of its input. -/
theorem sortDescBy_perm {α : Type} (key : α → Nat) (l : List α) :
    List.Perm (sortDescBy key l) l := by
  have h := foldl_insertDescBy_perm key l []
  simpa [sortDescBy] using h

/-- Stable ascending insert permutes likewise. -/
theorem insertAscBy_perm {α : Type} (key : α → Nat) (x : α) (l : List α) :
    List.Perm (insertAscBy key x l) (x :: l) := by
  induction l with
  | nil => exact List.Perm.refl _
  | cons y ys ih =>
    simp only [insertAscBy]
    split
    · exact (List.Perm.cons y ih).trans (List.Perm.swap x y ys)
    · exact List.Perm.refl _

/-- Folding ascending inserts over a list permutes it onto the accumulator. -/
theorem foldl_insertAscBy_perm {α : Type} (key : α → Nat) (l : List α) :
    ∀ acc : List α,
      List.Perm (l.foldl (fun acc x => insertAscBy key x acc) acc) (acc ++ l) := by
  induction l with
  | nil => intro acc; simp
  | cons x xs ih =>
    intro acc
    refine (ih (insertAscBy key x acc)).trans ?_
    refine ((insertAscBy_perm key x acc).append_right xs).trans ?_
    exact List.perm_middle.symm

/-- The ascending sort is a permutation of its input. -/
theorem sortAscBy_perm {α : Type} (key : α → Nat) (l : List α) :
    List.Perm (sortAscBy key l) l := by
  have h := foldl_insertAscBy_perm key l []
  simpa [sortAscBy] using h

/-- ES enumeration order only permutes the entries of an object. -/
theorem objEntriesES_perm {α : Type} (o : JsObj α) : List.Perm (objEntriesES o) o := by
  unfold objEntriesES
  refine ((sortAscBy_perm _ _).append_right _).trans ?_
  have hc : (o.filter (fun e => (arrayIndexKey? e.fst).isNone))
      = o.filter (fun e => !(arrayIndexKey? e.fst).isSome) := by
    refine List.filter_congr ?_
    intro e _
    cases arrayIndexKey? e.fst <;> rfl
  rw [hc]
  exact List.filter_append_perm _ o

/-- `Object.values` only permutes the value column of an object. -/
theorem objValuesES_perm {α : Type} (o : JsObj α) :
    List.Perm (objValuesES o) (o.map (fun e => e.snd)) :=
  (objEntriesES_perm o).map _

/-- Membership after a descending insert. -/
theorem mem_insertDescBy {α : Type} (key : α → Nat) (x : α) (l : List α) (z : α) :
    z ∈ insertDescBy key x l ↔ z = x ∨ z ∈ l := by
  rw [(insertDescBy_perm key x l).mem_iff]
  simp

/-- Descending insert preserves descending order. -/
theorem pairwise_insertDescBy {α : Type} (key : α → Nat) (x : α) (l : List α)
    (h : l.Pairwise (fun a b => key b ≤ key a)) :
    (insertDescBy key x l).Pairwise (fun a b => key b ≤ key a) := by
  induction l with
  | nil => simp [insertDescBy]
  | cons y ys ih =>
    rw [List.pairwise_cons] at h
    simp only [insertDescBy]
    split
    · rename_i hxy
      rw [List.pairwise_cons]
      refine ⟨?_, ih h.2⟩
      intro z hz
      rcases (mem_insertDescBy key x ys z).mp hz with rfl | hzys
      · exact hxy
      · exact h.1 z hzys
    · rename_i hxy
      push_neg at hxy
      rw [List.pairwise_cons]
      refine ⟨?_, List.pairwise_cons.mpr h⟩
      intro z hz
      rcases List.mem_cons.mp hz with rfl | hzys
      · exact Nat.le_of_lt hxy
      · exact Nat.le_trans (h.1 z hzys) (Nat.le_of_lt hxy)

/-- Folding descending inserts preserves descending order. -/
theorem pairwise_foldl_insertDescBy {α : Type} (key : α → Nat) (l : List α) :
    ∀ acc : List α, acc.Pairwise (fun a b => key b ≤ key a) →
      (l.foldl (fun acc x => insertDescBy key x acc) acc).Pairwise
        (fun a b => key b ≤ key a) := by
  induction l with
  | nil => intro acc h; exact h
  | cons x xs ih =>
    intro acc h
    exact ih _ (pairwise_insertDescBy key x acc h)

/-- The descending sort is sorted: frequencies never increase left to right. -/
theorem sortDescBy_pairwise {α : Type} (key : α → Nat) (l : List α) :
    (sortDescBy key l).Pairwise (fun a b => key b ≤ key a) :=
  pairwise_foldl_insertDescBy key l [] List.Pairwise.nil

/-- Lookup skips an entry whose key is different. -/
theorem objGet_cons_ne {α : Type} (a : Str × α) (o : JsObj α) (k : Str)
    (h : (a.fst == k) = false) : objGet (a :: o) k = objGet o k := by
  simp [objGet, List.find?, h]

/-- Lookup hits an entry whose key matches. -/
theorem objGet_cons_eq {α : Type} (a : Str × α) (o : JsObj α) (k : Str)
    (h : (a.fst == k) = true) : objGet (a :: o) k = some a.snd := by
  simp [objGet, List.find?, h]

/-- Lookup in a table mapped over a key list. -/
theorem objGet_map_keys {α : Type} (l : List Str) (f : Str → α) (k : Str) :
    objGet (l.map (fun x => (x, f x))) k = if k ∈ l then some (f k) else none := by
  induction l with
  | nil => simp [objGet]
  | cons a l ih =>
    by_cases hak : a = k
    · subst hak
      rw [List.map_cons, objGet_cons_eq _ _ _ (by simp)]
      simp
    · rw [List.map_cons, objGet_cons_ne _ _ _ (by simpa using hak), ih]
      by_cases hkl : k ∈ l
      · simp [hkl, Ne.symm hak]
      · simp [hkl, Ne.symm hak]

/-- Assignment of a fresh key appends the entry. -/
theorem objSet_append_new {α : Type} (o : JsObj α) (k : Str) (v : α)
    (h : ∀ e ∈ o, (e.fst == k) = false) :
    objSet o k v = o ++ [(k, v)] := by
  induction o with
  | nil => rfl
  | cons e rest ih =>
    have he : (e.fst == k) = false := h e (List.mem_cons_self e rest)
    simp only [objSet, he]
    simp only [Bool.false_eq_true, if_false, List.cons_append, List.cons.injEq, true_and]
    exact ih (fun x hx => h x (List.mem_cons_of_mem _ hx))

/-- Assignment of a present key in a duplicate-free mapped table rewrites its
one entry in place. -/
theorem objSet_map_update {α : Type} (l : List Str) (f g : Str → α) (k : Str)
    (hnd : l.Nodup) (hfg : ∀ x ∈ l, x ≠ k → f x = g x) (hk : k ∈ l) :
    objSet (l.map (fun x => (x, f x))) k (g k) = l.map (fun x => (x, g x)) := by
  induction l with
  | nil => cases hk
  | cons a l ih =>
    rw [List.nodup_cons] at hnd
    simp only [List.map_cons, objSet]
    by_cases hak : a = k
    · subst hak
      rw [if_pos (by simp)]
      congr 1
      refine List.map_congr_left ?_
      intro x hx
      rw [hfg x (List.mem_cons_of_mem _ hx) (fun hxa => hnd.1 (hxa ▸ hx))]
    · rw [if_neg (by simpa using hak)]
      rcases List.mem_cons.mp hk with h | hkl
      · exact absurd h.symm hak
      · rw [ih hnd.2 (fun x hx hxk => hfg x (List.mem_cons_of_mem _ hx) hxk) hkl,
          hfg a (List.mem_cons_self a l) hak]

/-- Appending one query folds one more update into the seen-key list. -/
theorem firstSeenKeys_append (qs : List Str) (q : Str) :
    firstSeenKeys (qs ++ [q]) = setAdd (firstSeenKeys qs) (lowerStr q) := by
  simp [firstSeenKeys, List.foldl_append]

/-- Membership after a set add. -/
theorem mem_setAdd (l : List Str) (x z : Str) :
    z ∈ setAdd l x ↔ z ∈ l ∨ z = x := by
  unfold setAdd
  split
  · rename_i h
    have hx : x ∈ l := by simpa [List.contains] using h
    constructor
    · exact fun hz => Or.inl hz
    · rintro (hz | rfl)
      · exact hz
      · exact hx
  · simp

/-- Set add preserves freedom from duplicates. -/
theorem setAdd_nodup (l : List Str) (x : Str) (h : l.Nodup) : (setAdd l x).Nodup := by
  unfold setAdd
  split
  · exact h
  · rename_i hc
    have hx : x ∉ l := fun hmem => hc (by simpa [List.contains] using hmem)
    simp [List.nodup_append, h, hx]

/-- Folding set adds preserves freedom from duplicates. -/
theorem foldl_firstSeen_nodup (qs : List Str) :
    ∀ acc : List Str, acc.Nodup →
      (qs.foldl (fun acc q => setAdd acc (lowerStr q)) acc).Nodup := by
  induction qs with
  | nil => intro acc h; exact h
  | cons q qs ih => intro acc h; exact ih _ (setAdd_nodup acc (lowerStr q) h)

/-- The first-seen key list is duplicate-free. -/
theorem firstSeenKeys_nodup (qs : List Str) : (firstSeenKeys qs).Nodup :=
  foldl_firstSeen_nodup qs [] List.nodup_nil

/-- Membership in the folded seen-key list. -/
theorem mem_foldl_firstSeen (qs : List Str) :
    ∀ (acc : List Str) (z : Str),
      z ∈ qs.foldl (fun acc q => setAdd acc (lowerStr q)) acc ↔
        z ∈ acc ∨ ∃ q ∈ qs, lowerStr q = z := by
  induction qs with
  | nil => intro acc z; simp
  | cons q qs ih =>
    intro acc z
    rw [List.foldl_cons, ih, mem_setAdd]
    constructor
    · rintro ((hz | rfl) | ⟨q', hq', rfl⟩)
      · exact Or.inl hz
      · exact Or.inr ⟨q, List.mem_cons_self q qs, rfl⟩
      · exact Or.inr ⟨q', List.mem_cons_of_mem _ hq', rfl⟩
    · rintro (hz | ⟨q', hq', rfl⟩)
      · exact Or.inl (Or.inl hz)
      · rcases List.mem_cons.mp hq' with rfl | hq''
        · exact Or.inl (Or.inr rfl)
        · exact Or.inr ⟨q', hq'', rfl⟩

/-- A normalized form is a seen key exactly when some query lowers to it. -/
theorem mem_firstSeenKeys (qs : List Str) (z : Str) :
    z ∈ firstSeenKeys qs ↔ ∃ q ∈ qs, lowerStr q = z := by
  have h := mem_foldl_firstSeen qs [] z
  simpa [firstSeenKeys] using h

/-- Appending one query bumps exactly the matching count. -/
theorem countKey_append (qs : List Str) (q k : Str) :
    countKey (qs ++ [q]) k
      = countKey qs k + (if lowerStr q == k then 1 else 0) := by
  by_cases h : (lowerStr q == k) = true
  · simp [countKey, List.filter_append, List.filter, h]
  · simp [countKey, List.filter_append, List.filter, h]

/-- A form no query lowers to has count zero. -/
theorem countKey_eq_zero (qs : List Str) (k : Str)
    (h : ∀ x ∈ qs, (lowerStr x == k) = false) : countKey qs k = 0 := by
  unfold countKey
  rw [List.filter_eq_nil_iff.mpr (fun x hx => by simp [h x hx])]
  rfl

/-- `find?` over an append takes the left hit first. -/
theorem find?_append_or {α : Type} (p : α → Bool) (l₁ l₂ : List α) :
    (l₁ ++ l₂).find? p = ((l₁.find? p).orElse (fun _ => l₂.find? p)) := by
  induction l₁ with
  | nil => simp
  | cons a l ih => by_cases h : p a <;> simp [List.find?, h, ih]

/-- The first-seen casing of an already-seen form survives an append. -/
theorem firstWithKey_append_left (qs : List Str) (q k : Str)
    (h : ∃ x ∈ qs, lowerStr x = k) :
    firstWithKey (qs ++ [q]) k = firstWithKey qs k := by
  unfold firstWithKey
  have hs : (qs.find? (fun x => lowerStr x == k)).isSome = true := by
    rw [List.find?_isSome]
    rcases h with ⟨x, hx, hxk⟩
    exact ⟨x, hx, beq_iff_eq.mpr hxk⟩
  rcases Option.isSome_iff_exists.mp hs with ⟨v, hv⟩
  rw [find?_append_or, hv]
  rfl

/-- The first-seen casing of a fresh form is the appended query itself. -/
theorem firstWithKey_append_new (qs : List Str) (q k : Str)
    (h : ∀ x ∈ qs, (lowerStr x == k) = false) (hq : (lowerStr q == k) = true) :
    firstWithKey (qs ++ [q]) k = q := by
  unfold firstWithKey
  have h1 : qs.find? (fun x => lowerStr x == k) = none :=
    List.find?_eq_none.mpr (fun x hx => by simp [h x hx])
  rw [find?_append_or, h1]
  simp [List.find?, hq]

/-- The entry of a form different from the appended query is unchanged. -/
theorem specEntry_append_other (qs : List Str) (q x : Str)
    (hmem : ∃ y ∈ qs, lowerStr y = x) (hx : x ≠ lowerStr q) :
    specEntry (qs ++ [q]) x = specEntry qs x := by
  unfold specEntry
  rw [firstWithKey_append_left qs q x hmem, countKey_append]
  have hne : (lowerStr q == x) = false :=
    beq_eq_false_iff_ne.mpr (fun h => hx h.symm)
  rw [hne]
  simp

/-- One step of the frequency-table fold, written on an appended query. -/
theorem queryFreqTable_append (qs : List Str) (q : Str) :
    queryFreqTable (qs ++ [q]) =
      (match objGet (queryFreqTable qs) (lowerStr q) with
       | some e => objSet (queryFreqTable qs) (lowerStr q)
           { query := e.query, frequency := e.frequency + 1 }
       | none => objSet (queryFreqTable qs) (lowerStr q)
           { query := q, frequency := 1 }) := by
  simp [queryFreqTable, List.foldl_append]

/-- The frequency table is exactly the first-seen keys, each carrying its
first-seen casing and occurrence count. -/
theorem queryFreqTable_eq (qs : List Str) :
    queryFreqTable qs = (firstSeenKeys qs).map (fun k => (k, specEntry qs k)) := by
  induction qs using List.reverseRecOn with
  | nil => rfl
  | append_singleton qs q ih =>
    by_cases hk : (lowerStr q) ∈ firstSeenKeys qs
    · have hex : ∃ x ∈ qs, lowerStr x = lowerStr q := (mem_firstSeenKeys qs _).mp hk
      have hget : objGet (queryFreqTable qs) (lowerStr q)
          = some (specEntry qs (lowerStr q)) := by
        rw [ih, objGet_map_keys, if_pos hk]
      have hkeys : firstSeenKeys (qs ++ [q]) = firstSeenKeys qs := by
        rw [firstSeenKeys_append]
        unfold setAdd
        rw [if_pos (by simpa [List.contains] using hk)]
      have hval : ({ query := (specEntry qs (lowerStr q)).query,
                     frequency := (specEntry qs (lowerStr q)).frequency + 1 } : QueryFreq)
          = specEntry (qs ++ [q]) (lowerStr q) := by
        unfold specEntry
        rw [firstWithKey_append_left qs q _ hex, countKey_append]
        simp
      rw [queryFreqTable_append, hget]
      show objSet (queryFreqTable qs) (lowerStr q)
          { query := (specEntry qs (lowerStr q)).query,
            frequency := (specEntry qs (lowerStr q)).frequency + 1 }
        = (firstSeenKeys (qs ++ [q])).map (fun k => (k, specEntry (qs ++ [q]) k))
      rw [hval, hkeys, ih]
      refine objSet_map_update (firstSeenKeys qs) (specEntry qs) (specEntry (qs ++ [q]))
        (lowerStr q) (firstSeenKeys_nodup qs) ?_ hk
      intro x hx hxk
      exact (specEntry_append_other qs q x ((mem_firstSeenKeys qs x).mp hx) hxk).symm
    · have hnomatch : ∀ x ∈ qs, (lowerStr x == lowerStr q) = false := by
        intro x hx
        rw [beq_eq_false_iff_ne]
        intro he
        exact hk ((mem_firstSeenKeys qs (lowerStr q)).mpr ⟨x, hx, he⟩)
      have hnone : objGet (queryFreqTable qs) (lowerStr q) = none := by
        rw [ih, objGet_map_keys, if_neg hk]
      have hkeys : firstSeenKeys (qs ++ [q]) = firstSeenKeys qs ++ [lowerStr q] := by
        rw [firstSeenKeys_append]
        unfold setAdd
        rw [if_neg (fun hcc => hk (by simpa [List.contains] using hcc))]
      have hnewv : specEntry (qs ++ [q]) (lowerStr q)
          = { query := q, frequency := 1 } := by
        unfold specEntry
        rw [firstWithKey_append_new qs q _ hnomatch (by simp), countKey_append,
          countKey_eq_zero qs _ hnomatch]
        simp
      rw [queryFreqTable_append, hnone]
      show objSet (queryFreqTable qs) (lowerStr q) { query := q, frequency := 1 }
        = (firstSeenKeys (qs ++ [q])).map (fun k => (k, specEntry (qs ++ [q]) k))
      rw [hkeys, List.map_append, ih]
      rw [objSet_append_new _ _ _ ?hfresh]
      case hfresh =>
        intro e he
        rcases List.mem_map.mp he with ⟨x, hxmem, rfl⟩
        rw [beq_eq_false_iff_ne]
        exact fun hxe => hk (hxe ▸ hxmem)
      congr 1
      · refine List.map_congr_left ?_
        intro x hx
        have hxk : x ≠ lowerStr q := fun h => hk (h ▸ hx)
        rw [specEntry_append_other qs q x ((mem_firstSeenKeys qs x).mp hx) hxk]
      · simp [hnewv]

/-- The spec-side dedup list is the value column of the frequency table. -/
theorem dedupFirstSeenSpec_eq (qs : List Str) :
    dedupFirstSeenSpec qs = (queryFreqTable qs).map (fun e => e.snd) := by
  rw [queryFreqTable_eq, List.map_map]
  rfl

/-- C7 (amended): user queries are deduplicated case-insensitively with a
per-unique-form frequency count displaying the first-seen casing — the
unique-query list is a permutation of that spec-side dedup and is sorted
descending by frequency — but tie order follows JavaScript property
enumeration (integer-like normalized forms enumerate first), not plain
first-seen order; three casings of one query still collapse to one entry of
frequency 3 with the first-seen display casing. -/
theorem c7_query_dedup_amended :
    (extractQueryAnalysis [tThreeCasings]).allUniqueQueries
        = some [{ query := ("Find shoes").toList, frequency := 3 }]
    ∧ ∀ ts : List Transcript,
        List.Perm ((extractQueryAnalysis ts).allUniqueQueries.getD [])
          (dedupFirstSeenSpec (userQueries ts))
        ∧ List.Pairwise (fun a b => b.frequency ≤ a.frequency)
          ((extractQueryAnalysis ts).allUniqueQueries.getD []) := by
  refine ⟨by decide, fun ts => ?_⟩
  have hval : (extractQueryAnalysis ts).allUniqueQueries.getD []
      = sortDescBy (fun e => e.frequency)
          (objValuesES (queryFreqTable (userQueries ts))) := rfl
  rw [hval]
  constructor
  · refine (sortDescBy_perm _ _).trans ?_
    refine (objValuesES_perm _).trans ?_
    rw [dedupFirstSeenSpec_eq]
  · exact sortDescBy_pairwise _ _

/-- C7 counterexample: on the queries `zebra` then `7` (both of frequency 1)
the claim predicts first-seen tie order `zebra`, `7`, but `7` is an
integer-like property key, so `Object.values` enumerates it first and the
stable sort keeps it first: the engine emits `7`, `zebra`. -/
theorem c7_tie_order_counterexample :
    userQueries [tTie] = [("zebra").toList, ("7").toList]
    ∧ dedupFirstSeenSpec (userQueries [tTie])
        = [{ query := ("zebra").toList, frequency := 1 },
           { query := ("7").toList, frequency := 1 }]
    ∧ (extractQueryAnalysis [tTie]).allUniqueQueries
        = some [{ query := ("7").toList, frequency := 1 },
                { query := ("zebra").toList, frequency := 1 }]
    ∧ ¬ ((extractQueryAnalysis [tTie]).allUniqueQueries
        = some (dedupFirstSeenSpec (userQueries [tTie]))) :=
  ⟨by decide, by decide, by decide, by decide⟩

end ChatbotAnalyzer
